import Mathlib

/-!
Verification of the poker tournament awards parser
(`PokerAwardsParser` and the standalone award-assignment fragment,
src/unnamed/part_001).

The JavaScript source is shallowly embedded: the regex-driven text
extraction is modelled by structured hand records whose fields are the
match lists the source's regexes produce over a hand's text; JS objects
keyed by player name become insertion-ordered association lists; JS
numbers become `Nat`/`Int`/`Rat` (all quantities involved are small
integers and exact ratios of small integers, where IEEE doubles are
exact for the comparisons performed); JS `undefined` becomes `Option`.
-/

namespace Pokerpopupstats

/-- `pat` is a prefix of the character list. -/
def isPrefixChars : List Char → List Char → Bool
  | [], _ => true
  | _ :: _, [] => false
  | a :: pa, b :: lb => a == b && isPrefixChars pa lb

/-- `pat` occurs as a contiguous run inside the character list. -/
def infixChars (pat : List Char) : List Char → Bool
  | [] => pat.isEmpty
  | c :: rest => isPrefixChars pat (c :: rest) || infixChars pat rest

/-- JS `String.prototype.includes`: substring containment. -/
def strIncludes (s pat : String) : Bool := infixChars pat.data s.data

/-- JS `String.prototype.toLowerCase` (ASCII range, as the inputs here are). -/
def strToLower (s : String) : String := ⟨s.data.map Char.toLower⟩

/-- JS falsy-or on numbers: `x || d` where `x` may be `undefined`/`null`/`0`. -/
def jsOrNat (x : Option Nat) (d : Nat) : Nat :=
  match x with
  | none => d
  | some v => if v = 0 then d else v

/-- JS falsy-or on strings: `x || d` where `x` may be `undefined`/`null`/`""`. -/
def jsOrStr (x : Option String) (d : String) : String :=
  match x with
  | none => d
  | some v => if v = "" then d else v

/-- JS `Math.round` (round half toward positive infinity) on a rational. -/
def jsRound (q : Rat) : Int := (q + 1/2).floor

/-- `evaluateMadeHandStrength(handDescription)`: numeric strength tier of a
textual made-hand description (src/unnamed/part_001 lines 882-904). -/
def evaluateMadeHandStrength (handDescription : String) : Nat :=
  let handDesc := strToLower handDescription
  if strIncludes handDesc "royal flush" then 1000
  else if strIncludes handDesc "straight flush" then 900
  else if strIncludes handDesc "four of a kind" then 800
  else if strIncludes handDesc "full house" then 700
  else if strIncludes handDesc "flush" && !strIncludes handDesc "straight" then 600
  else if strIncludes handDesc "straight" && !strIncludes handDesc "flush" then 500
  else if strIncludes handDesc "three of a kind" then 400
  else if strIncludes handDesc "two pair" then
    (if ["aces", "kings", "queens"].any (fun card => strIncludes handDesc card)
     then 300 else 200)
  else if strIncludes handDesc "pair of" then
    (if strIncludes handDesc "aces" then 150
     else if strIncludes handDesc "kings" then 140
     else if strIncludes handDesc "queens" then 130
     else if strIncludes handDesc "jacks" then 120
     else 100)
  else 50

/-- `getSimpleHandDescription(fullDescription)`: canonical short label
(src/unnamed/part_001 lines 916-944). -/
def getSimpleHandDescription (fullDescription : String) : String :=
  let desc := strToLower fullDescription
  if strIncludes desc "royal flush" then "royal flush"
  else if strIncludes desc "straight flush" then "straight flush"
  else if strIncludes desc "four of a kind" then
    (if strIncludes desc "aces" then "quad aces"
     else if strIncludes desc "kings" then "quad kings"
     else if strIncludes desc "queens" then "quad queens"
     else "quads")
  else if strIncludes desc "full house" then "full house"
  else if strIncludes desc "flush" && !strIncludes desc "straight" then "flush"
  else if strIncludes desc "straight" && !strIncludes desc "flush" then "straight"
  else if strIncludes desc "three of a kind" then
    (if strIncludes desc "aces" then "trip aces"
     else if strIncludes desc "kings" then "trip kings"
     else if strIncludes desc "queens" then "trip queens"
     else if strIncludes desc "jacks" then "trip jacks"
     else "trips")
  else if strIncludes desc "two pair" then "two pair"
  else if strIncludes desc "pair of aces" then "pocket aces"
  else if strIncludes desc "pair of kings" then "pocket kings"
  else if strIncludes desc "pair of queens" then "pocket queens"
  else if strIncludes desc "pair of jacks" then "pocket jacks"
  else if strIncludes desc "pair of" then "a pair"
  else "high card"

/-- One element of `playerHands` in `analyzeShowdownForBadBeats`. -/
structure PlayerHand where
  player : String
  cards : String
  description : String
  made_hand_strength : Nat
  won : Bool
deriving DecidableEq

/-- `isGenuineBadBeat(losingHand, winningHand)`
(src/unnamed/part_001 lines 906-914). -/
def isGenuineBadBeat (losingHand winningHand : PlayerHand) : Bool :=
  let loserStrength := losingHand.made_hand_strength
  let winnerStrength := winningHand.made_hand_strength
  if 400 ≤ loserStrength then true
  else if decide (300 ≤ loserStrength) && decide (loserStrength < winnerStrength) then true
  else false

/-- A bad-beat record pushed onto the victim's `bad_beats` list. -/
structure BadBeatInfo where
  victim_hand : String
  winner_hand : String
  winner : String
  description : String
deriving DecidableEq

/-- The mirrored record pushed onto the winner's `suckouts` list. -/
structure SuckoutInfo where
  winning_hand : String
  victim : String
  victim_hand : String
  description : String
deriving DecidableEq

/-- The per-player statistics record initialised in `parseHand`
(src/unnamed/part_001 lines 688-707). -/
structure PlayerStat where
  hands_played : Nat := 0
  raises : Nat := 0
  calls : Nat := 0
  folds : Nat := 0
  bets : Nat := 0
  checks : Nat := 0
  showdowns : Nat := 0
  showdown_wins : Nat := 0
  total_won : Nat := 0
  total_bet : Nat := 0
  aggressive_actions : Nat := 0
  passive_actions : Nat := 0
  hands_voluntarily_played : Nat := 0
  final_position : Option Nat := none
  max_chips : Nat := 0
  bad_beats : List BadBeatInfo := []
  suckouts : List SuckoutInfo := []
deriving DecidableEq

/-- The JS object keyed by player name: an insertion-ordered association
list (JS object keys are unique and iterate in insertion order). -/
abbrev Players := List (String × PlayerStat)

/-- Look up a player by name (JS `players[name]`). -/
def getPlayer (ps : Players) (name : String) : Option PlayerStat :=
  match ps with
  | [] => none
  | (k, v) :: rest => if k = name then some v else getPlayer rest name

/-- Mutate the stat stored under `name`, if present (JS in-place field
mutation on `players[name]`; absent keys are left untouched, as the
source guards each mutation with `if (players[name])`). -/
def updatePlayer (ps : Players) (name : String) (f : PlayerStat → PlayerStat) :
    Players :=
  ps.map (fun kv => if kv.1 = name then (kv.1, f kv.2) else kv)

/-- One `(player, cards, description)` match of the showdown reveal regex
`/(\w+(?:\*\d+)?): shows \[([^\]]+)\] \(([^)]+)\)/g`, together with the
optional trailing `and (won|lost)` that the separate regex
`/(\w+(?:\*\d+)?): shows.*?and (won|lost)/g` reads from the same line. -/
structure ShowEntry where
  player : String
  cards : String
  desc : String
  result : Option Bool
deriving DecidableEq

/-- The `badBeatInfo` object built for one qualifying losing hand
(src/unnamed/part_001 lines 845-853). -/
def mkBadBeatInfo (winner : String) (losingHand winningHand : PlayerHand) :
    BadBeatInfo :=
  { victim_hand := losingHand.description
    winner_hand := winningHand.description
    winner := winner
    description := losingHand.player ++ " had " ++
      getSimpleHandDescription losingHand.description ++
      ", got cracked by " ++ winner ++ "'s " ++
      getSimpleHandDescription winningHand.description }

/-- The mirrored `suckoutInfo` object (src/unnamed/part_001
lines 861-866). -/
def mkSuckoutInfo (winner : String) (losingHand winningHand : PlayerHand) :
    SuckoutInfo :=
  { winning_hand := winningHand.description
    victim := losingHand.player
    victim_hand := losingHand.description
    description := "Sucked out with " ++
      getSimpleHandDescription winningHand.description ++ " vs " ++
      getSimpleHandDescription losingHand.description }

/-- Append a bad-beat/suckout pair for one qualifying losing hand
(src/unnamed/part_001 lines 840-869). -/
def pushBadBeat (winner : String) (losingHand winningHand : PlayerHand)
    (players : Players) : Players :=
  let players := updatePlayer players losingHand.player
    (fun st => { st with bad_beats :=
      st.bad_beats ++ [mkBadBeatInfo winner losingHand winningHand] })
  updatePlayer players winner
    (fun st => { st with suckouts :=
      st.suckouts ++ [mkSuckoutInfo winner losingHand winningHand] })

/-- The element of `playerHands` built from one reveal match
(src/unnamed/part_001 lines 818-832): classify the description and mark
whether this player is the pot collector. -/
def enrichShow (w : String) (e : ShowEntry) : PlayerHand :=
  { player := e.player
    cards := e.cards
    description := e.desc
    made_hand_strength := evaluateMadeHandStrength e.desc
    won := e.player == w }

/-- `analyzeShowdownForBadBeats(handText, players)`
(src/unnamed/part_001 lines 787-880).

`hasShowdown` models `handText.includes('*** SHOW DOWN ***')`,
`showdownMatches` the reveal-regex matches over the post-marker section,
`winnerMatches` the `collected ... from pot` matches over the whole hand,
and `splitLanguage` whether the lowercased hand text contains
`'split pot'`, `'divided'` or `'tied'`. -/
def analyzeShowdownForBadBeats (hasShowdown : Bool)
    (showdownMatches : List ShowEntry) (winnerMatches : List (String × Nat))
    (splitLanguage : Bool) (players : Players) : Players :=
  if !hasShowdown then players
  else if 1 < winnerMatches.length then players
  else if splitLanguage then players
  else if 2 ≤ showdownMatches.length &&
      (match winnerMatches.head?.map (fun x => x.1) with
       | some w => w != "" | none => false) &&
      winnerMatches.length == 1 then
    match winnerMatches.head?.map (fun x => x.1) with
    | none => players
    | some w =>
      match (showdownMatches.map (enrichShow w)).find? (fun h => h.won) with
      | none => players
      | some wh =>
        ((showdownMatches.map (enrichShow w)).filter
            (fun h => !h.won)).foldl (fun ps lh =>
          if isGenuineBadBeat lh wh then pushBadBeat w lh wh ps else ps)
          players
  else players

/-- Insert into a descending-sorted list, after any equal keys already
there. -/
def insertDescBy {α : Type} (key : α → Rat) (x : α) : List α → List α
  | [] => [x]
  | y :: ys =>
    if key y ≤ key x then x :: y :: ys else y :: insertDescBy key x ys

/-- Stable descending sort by a numeric key: the semantics of JS
`Array.prototype.sort` (stable per ES2019) with comparator
`(a, b) => key(b) - key(a)`; a stable sort's output is determined
uniquely by the comparator, so insertion sort models it exactly. -/
def jsSortDesc {α : Type} (key : α → Rat) : List α → List α
  | [] => []
  | x :: xs => insertDescBy key x (jsSortDesc key xs)

/-- One action keyword of the five per-player action regexes. -/
inductive ActionType
  | raisesA | callsA | foldsA | betsA | checksA
deriving DecidableEq

/-- One hand record, as the source's regexes read it: each field is the
match list of one regex over the hand's text (src/unnamed/part_001
lines 680-785).

* `seats` — `/Seat \d+: (\w+(?:\*\d+)?)\s*\((\d+) in chips\)/g`;
* `hasShowdown` — `handText.includes('*** SHOW DOWN ***')`;
* `showdownReveals` — the `shows [cards] (desc)` lines (each optionally
  carrying the `and won|lost` tail read by the showdown-result regex);
* `actions` — the union of the five action-keyword regex match lists
  (the five scans only ever increment counters, so their interleaving
  is irrelevant to the result);
* `voluntaryActors` — matches of
  `/(\w+(?:\*\d+)?): (?:raises|calls|folds)(?! before Flop)/g` in order;
* `collections` — `/(\w+(?:\*\d+)?) collected (\d+) from pot/g`;
* `splitLanguage` — whether the lowercased text contains `'split pot'`,
  `'divided'` or `'tied'`. -/
structure Hand where
  seats : List (String × Nat)
  hasShowdown : Bool
  showdownReveals : List ShowEntry
  actions : List (String × ActionType)
  voluntaryActors : List String
  collections : List (String × Nat)
  splitLanguage : Bool
deriving DecidableEq

/-- The `(player, won|lost)` matches of
`/(\w+(?:\*\d+)?): shows.*?and (won|lost)/g`: the reveal lines carrying
a result tail. -/
def Hand.showdownResults (h : Hand) : List (String × Bool) :=
  h.showdownReveals.filterMap (fun e => e.result.map (fun b => (e.player, b)))

/-- Register one seat match: create the stat on first sight, then
increment `hands_played` and update `max_chips`
(src/unnamed/part_001 lines 685-712). -/
def registerSeat (players : Players) (pc : String × Nat) : Players :=
  updatePlayer
    (if (getPlayer players pc.1).isSome then players
     else players ++ [(pc.1, { max_chips := pc.2 })])
    pc.1
    (fun st =>
      { st with hands_played := st.hands_played + 1
                max_chips := max st.max_chips pc.2 })

/-- Count one action-keyword match (src/unnamed/part_001 lines 728-742). -/
def countAction (players : Players) (m : String × ActionType) : Players :=
  updatePlayer players m.1 (fun st =>
    let st :=
      match m.2 with
      | .raisesA => { st with raises := st.raises + 1 }
      | .callsA => { st with calls := st.calls + 1 }
      | .foldsA => { st with folds := st.folds + 1 }
      | .betsA => { st with bets := st.bets + 1 }
      | .checksA => { st with checks := st.checks + 1 }
    match m.2 with
    | .raisesA | .betsA =>
        { st with aggressive_actions := st.aggressive_actions + 1 }
    | .callsA | .checksA =>
        { st with passive_actions := st.passive_actions + 1 }
    | .foldsA => st)

/-- Credit one voluntary-play increment (src/unnamed/part_001
lines 753-757). -/
def markVoluntary (players : Players) (playerName : String) : Players :=
  updatePlayer players playerName (fun st =>
    { st with hands_voluntarily_played := st.hands_voluntarily_played + 1 })

/-- Count one showdown-result match (src/unnamed/part_001 lines 764-772). -/
def countShowdownResult (players : Players) (m : String × Bool) : Players :=
  updatePlayer players m.1 (fun st =>
    let st := { st with showdowns := st.showdowns + 1 }
    if m.2 then { st with showdown_wins := st.showdown_wins + 1 } else st)

/-- Credit one collected pot (src/unnamed/part_001 lines 776-784). -/
def addWinnings (players : Players) (m : String × Nat) : Players :=
  updatePlayer players m.1 (fun st =>
    { st with total_won := st.total_won + m.2 })

/-- First-occurrence deduplication with an explicit seen-accumulator:
the JS `Set` the voluntary-play matches are collected into
(insertion-ordered, no duplicates). -/
def dedupAux : List String → List String → List String
  | [], _ => []
  | x :: xs, seen =>
    if seen.contains x then dedupAux xs seen
    else x :: dedupAux xs (x :: seen)

/-- The `voluntaryPlayers` set (src/unnamed/part_001 lines 747-751). -/
def dedupFirst (l : List String) : List String := dedupAux l []

/-- `parseHand(handText, players)` (src/unnamed/part_001 lines 680-785):
seat registration, showdown bad-beat analysis, action counting,
voluntary-play marking (deduplicated through a `Set`, so at most one
increment per player per hand), showdown participation/wins, winnings. -/
def parseHand (hand : Hand) (players : Players) : Players :=
  let players := hand.seats.foldl registerSeat players
  let players :=
    if hand.hasShowdown then
      analyzeShowdownForBadBeats true hand.showdownReveals hand.collections
        hand.splitLanguage players
    else players
  let players := hand.actions.foldl countAction players
  let players := (dedupFirst hand.voluntaryActors).foldl markVoluntary players
  let players :=
    if hand.hasShowdown then
      hand.showdownResults.foldl countShowdownResult players
    else players
  hand.collections.foldl addWinnings players

/-- Assign 2nd place to the first shown finalist other than the winner
(the `for … break` loop, src/unnamed/part_001 lines 975-980). -/
def assignSecond (players : Players) (winner : String) :
    List String → Players
  | [] => players
  | finalist :: rest =>
    if finalist ≠ winner ∧ (getPlayer players finalist).isSome then
      updatePlayer players finalist
        (fun st => { st with final_position := some 2 })
    else assignSecond players winner rest

/-- The position-reset loop opening `determineFinalPositions`
(src/unnamed/part_001 lines 947-952). -/
def resetPositions (players : Players) : Players :=
  players.map
    (fun kv => (kv.1, { kv.2 with final_position := (none : Option Nat) }))

/-- The final-hand block of `determineFinalPositions`
(src/unnamed/part_001 lines 958-982): the pot collector of the final
hand gets position 1 (when registered), then the first other shown
finalist gets position 2. The finalist matches of
`/(\w+(?:\*\d+)?): shows/g` over the final hand are the players of its
reveal lines. -/
def assignTopTwo (players : Players) (finalHand : Hand) : Players :=
  match finalHand.collections.head? with
  | none => players
  | some (winner, _) =>
    if 0 < (finalHand.showdownReveals.map (fun e => e.player)).length then
      assignSecond
        (if (getPlayer players winner).isSome then
          updatePlayer players winner
            (fun st => { st with final_position := some 1 })
        else players)
        winner (finalHand.showdownReveals.map (fun e => e.player))
    else players

/-- The third-place fallback of `determineFinalPositions`
(src/unnamed/part_001 lines 984-993): stable-sort the still-unassigned
players by descending `max_chips` and give the first position 3. -/
def assignThird (players : Players) : Players :=
  match (jsSortDesc (fun kv => (kv.2.max_chips : Rat))
      (players.filter (fun kv => kv.2.final_position = none))).head? with
  | some (name, _) =>
    updatePlayer players name (fun st => { st with final_position := some 3 })
  | none => players

/-- `determineFinalPositions(players, fullText)`
(src/unnamed/part_001 lines 946-994). The source re-splits `fullText`
with the hand-header regex; here the already-split hand list is
passed. -/
def determineFinalPositions (players : Players) (hands : List Hand) :
    Players :=
  assignThird
    (match hands.getLast? with
     | none => resetPositions players
     | some finalHand => assignTopTwo (resetPositions players) finalHand)

/-- The `tournament_info` entry of the extraction result. -/
structure TournamentInfo where
  id : Option String := none
  date : Option String := none
  player_count : Nat := 0
deriving DecidableEq

/-- A transcript as the hand-splitting layer reads it: the ordered hand
records matched by the hand-header regex, plus the transcript-level
tournament-id and timestamp matches. -/
structure Transcript where
  hands : List Hand
  tournamentId : Option String
  date : Option String
deriving DecidableEq

/-- `extractFromTxt`'s result object: the player map plus its
`tournament_info` entry (kept separately, as the JS object mixes them
under one keyspace). -/
structure PlayersData where
  players : Players
  tournament_info : TournamentInfo

/-- `extractFromTxt(text)` (src/unnamed/part_001 lines 629-678). -/
def extractFromTxt (t : Transcript) : PlayersData :=
  let players := t.hands.foldl (fun ps h => parseHand h ps) []
  let players := determineFinalPositions players t.hands
  { players := players
    tournament_info :=
      { id := t.tournamentId
        date := t.date
        player_count := players.length } }

/-- One award: winner, description, stat line. -/
structure AwardRecord where
  winner : String
  description : String
  stat : String
deriving DecidableEq

/-- The state threaded through award assignment: the `awards` object
(insertion-ordered) and the `awardedPlayers` set. -/
structure AwardsState where
  awards : List (String × AwardRecord)
  awardedPlayers : List String
deriving DecidableEq

/-- The `forEach` maximum-selection loop: strict improvement over a
running best starting from `init`, first maximum wins. -/
def pickMaxBy (score : PlayerStat → Rat) (init : Rat)
    (cands : List (String × PlayerStat)) : Option String :=
  (cands.foldl (fun acc kv =>
    let r := score kv.2
    if acc.2 < r then (some kv.1, r) else acc)
    ((none : Option String), init)).1

/-- The dual minimum-selection loop (used by Tightest Player). -/
def pickMinBy (score : PlayerStat → Rat) (init : Rat)
    (cands : List (String × PlayerStat)) : Option String :=
  (cands.foldl (fun acc kv =>
    let r := score kv.2
    if r < acc.2 then (some kv.1, r) else acc)
    ((none : Option String), init)).1

/-- JS `v || d` for an always-present numeric field (`0` is falsy). -/
def jsOrN (v d : Nat) : Nat := if v = 0 then d else v

/-- Tournament Champion (src/unnamed/part_001 lines 1033-1042 and 15-24). -/
def awardChampion (players : Players) (st : AwardsState) : AwardsState :=
  let championCandidates :=
    players.filter (fun kv => kv.2.final_position = some 1)
  match championCandidates.head? with
  | some c =>
    { st with awards := st.awards ++
        [("🏆 Tournament Champion",
          { winner := c.1
            description := "Survived the chaos and claimed the crown"
            stat := "Outlasted " ++ toString (players.length - 1) ++
              " other players" })] }
  | none => st

/-- Runner Up (src/unnamed/part_001 lines 1044-1053 and 26-35). -/
def awardRunnerUp (players : Players) (st : AwardsState) : AwardsState :=
  let runnerUpCandidates :=
    players.filter (fun kv => kv.2.final_position = some 2)
  match runnerUpCandidates.head? with
  | some c =>
    { st with awards := st.awards ++
        [("🥈 Runner Up",
          { winner := c.1
            description := "So close to glory, yet so far"
            stat := "Heads-up warrior" })] }
  | none => st

/-- Most Aggressive (src/unnamed/part_001 lines 1057-1085 and 39-67). -/
def awardMostAggressive (players : Players) (st : AwardsState) :
    AwardsState :=
  let aggressivePlayers := players.filter (fun kv =>
    decide (5 < kv.2.hands_played) && !st.awardedPlayers.contains kv.1)
  match pickMaxBy (fun data =>
      (data.aggressive_actions : Rat) /
        ((max (jsOrN data.hands_played 1) 1 : Nat) : Rat)) 0
      aggressivePlayers with
  | some bestAggressive =>
    { awards := st.awards ++
        [("🔥 Most Aggressive",
          { winner := bestAggressive
            description := "Fearless bets and raises kept everyone on edge"
            stat := "Never met a pot they didn't want to steal" })]
      awardedPlayers := st.awardedPlayers ++ [bestAggressive] }
  | none => st

/-- Calling Station (src/unnamed/part_001 lines 1087-1115 and 69-97). -/
def awardCallingStation (players : Players) (st : AwardsState) :
    AwardsState :=
  let callingCandidates := players.filter (fun kv =>
    !st.awardedPlayers.contains kv.1 && decide (5 < kv.2.hands_played))
  match pickMaxBy (fun data =>
      (data.calls : Rat) /
        ((max (jsOrN data.hands_played 1) 1 : Nat) : Rat)) 0
      callingCandidates with
  | some bestCaller =>
    { awards := st.awards ++
        [("📞 Calling Station",
          { winner := bestCaller
            description := "Never saw a bet they didn't want to call"
            stat := "The human slot machine" })]
      awardedPlayers := st.awardedPlayers ++ [bestCaller] }
  | none => st

/-- Tightest Player (src/unnamed/part_001 lines 1117-1145 and 99-127). -/
def awardTightestPlayer (players : Players) (st : AwardsState) :
    AwardsState :=
  let tightCandidates := players.filter (fun kv =>
    !st.awardedPlayers.contains kv.1 && decide (5 < kv.2.hands_played))
  match pickMinBy (fun data =>
      (data.hands_voluntarily_played : Rat) /
        ((max (jsOrN data.hands_played 1) 1 : Nat) : Rat)) 1
      tightCandidates with
  | some tightestPlayer =>
    { awards := st.awards ++
        [("🧊 Tightest Player",
          { winner := tightestPlayer
            description := "Plays only a small, selective number of hands"
            stat := "Classic tight-aggressive strategy" })]
      awardedPlayers := st.awardedPlayers ++ [tightestPlayer] }
  | none => st

/-- Comeback Kid (src/unnamed/part_001 lines 1147-1176 and 129-158). -/
def awardComebackKid (players : Players) (st : AwardsState) : AwardsState :=
  let allChips :=
    (players.map (fun kv => kv.2.max_chips)).filter (fun c => 0 < c)
  let comebackCandidates : List (String × Rat) :=
    match allChips with
    | [] => []
    | c :: restChips =>
      let minChips := restChips.foldl min c
      players.filterMap (fun kv =>
        if st.awardedPlayers.contains kv.1 then none
        else
          match kv.2.final_position with
          | none => none
          | some finalPos =>
            if kv.2.max_chips ≤ minChips * 2 ∧
                (finalPos : Rat) ≤ (players.length : Rat) / 2 then
              some (kv.1,
                ((players.length : Rat) - (finalPos : Rat)) /
                  ((max kv.2.max_chips 1 : Nat) : Rat))
            else none)
  let sorted := jsSortDesc (fun c => c.2) comebackCandidates
  match sorted.head? with
  | some comebackKing =>
    { awards := st.awards ++
        [("🎯 Comeback Kid",
          { winner := comebackKing.1
            description := "Largest comeback from the smallest chip stack"
            stat := "Rose from the ashes like a phoenix" })]
      awardedPlayers := st.awardedPlayers ++ [comebackKing.1] }
  | none => st

/-- YOLO Award (src/unnamed/part_001 lines 1178-1200 and 160-182). -/
def awardYolo (players : Players) (st : AwardsState) : AwardsState :=
  let yoloCandidates := players.foldl (fun acc kv =>
    if st.awardedPlayers.contains kv.1 then acc
    else acc ++ kv.2.suckouts.filterMap (fun suckout =>
      let description := strToLower suckout.description
      if ["7", "2", "offsuit", "unsuited"].any
          (fun badHand => strIncludes description badHand)
      then some (kv.1, suckout) else none)) []
  match yoloCandidates.head? with
  | some yoloWinner =>
    { awards := st.awards ++
        [("🎲 YOLO Award",
          { winner := yoloWinner.1
            description := "Biggest pot won with the worst starting hand"
            stat := "Sometimes you gotta risk it all" })]
      awardedPlayers := st.awardedPlayers ++ [yoloWinner.1] }
  | none => st

/-- Doggy Paddling Award (src/unnamed/part_001 lines 1202-1227
and 184-209). -/
def awardDoggyPaddling (players : Players) (st : AwardsState) :
    AwardsState :=
  let survivors := players.filter (fun kv =>
    !st.awardedPlayers.contains kv.1 &&
      decide ((players.length : Rat) * (3/5) <
        ((jsOrNat kv.2.final_position 999 : Nat) : Rat)))
  match pickMaxBy (fun data => (data.hands_played : Rat)) 0 survivors with
  | some longestSurvivor =>
    { awards := st.awards ++
        [("🐶💦 Doggy Paddling Award",
          { winner := longestSurvivor
            description :=
              "Consistently hovers at the bottom but somehow stays alive longer than expected"
            stat := "Survival instincts kicked in" })]
      awardedPlayers := st.awardedPlayers ++ [longestSurvivor] }
  | none => st

/-- Hollywood Actor (src/unnamed/part_001 lines 1229-1257 and 211-239). -/
def awardHollywoodActor (players : Players) (st : AwardsState) :
    AwardsState :=
  let blufferCandidates := players.filter (fun kv =>
    !st.awardedPlayers.contains kv.1 && decide (2 < kv.2.bets))
  match pickMaxBy (fun data =>
      (data.bets : Rat) / ((max (jsOrN data.showdowns 1) 1 : Nat) : Rat)) 0
      blufferCandidates with
  | some bestBluffer =>
    { awards := st.awards ++
        [("🎭 Hollywood Actor",
          { winner := bestBluffer
            description := "Most bluffs attempted (successful or failed)"
            stat := "Master of deception and theatrics" })]
      awardedPlayers := st.awardedPlayers ++ [bestBluffer] }
  | none => st

/-- 7-2 Hero (src/unnamed/part_001 lines 1259-1281 and 241-263). -/
def awardSevenTwoHero (players : Players) (st : AwardsState) :
    AwardsState :=
  let badHandWinners := players.foldl (fun acc kv =>
    if st.awardedPlayers.contains kv.1 then acc
    else acc ++ kv.2.suckouts.filterMap (fun suckout =>
      let winningHand := strToLower suckout.winning_hand
      if (strIncludes winningHand "7" && strIncludes winningHand "2") ||
          strIncludes winningHand "worst"
      then some (kv.1, suckout) else none)) []
  match badHandWinners.head? with
  | some heroWinner =>
    { awards := st.awards ++
        [("💩 7-2 Hero",
          { winner := heroWinner.1
            description := "Won with the infamous 7-2 offsuit"
            stat := "Turned trash into treasure" })]
      awardedPlayers := st.awardedPlayers ++ [heroWinner.1] }
  | none => st

/-- The Donkey candidate list `(name, donkeyScore, vpip)`
(src/unnamed/part_001 lines 1284-1298 and 266-280). -/
def donkeyCandidatesOf (players : Players) (st : AwardsState) :
    List (String × Rat × Rat) :=
  players.filterMap (fun kv =>
    if st.awardedPlayers.contains kv.1 then none
    else
      let handsPlayed := kv.2.hands_played
      if 10 < handsPlayed then
        let vpip :=
          (kv.2.hands_voluntarily_played : Rat) / (handsPlayed : Rat)
        let winRate := (kv.2.showdown_wins : Rat) /
          ((max (jsOrN kv.2.showdowns 1) 1 : Nat) : Rat)
        if 2/5 < vpip ∧ winRate < 3/10 then
          some (kv.1, vpip / (winRate + 1/10), vpip)
        else none
      else none)

/-- Sort the Donkey candidates, take the top one, award when its score
exceeds 1.5 (src/unnamed/part_001 lines 1300-1312 and 282-295). -/
def applyDonkey (donkeyCandidates : List (String × Rat × Rat))
    (st : AwardsState) : AwardsState :=
  let sorted := jsSortDesc (fun c => c.2.1) donkeyCandidates
  match sorted.head? with
  | some worstPlayer =>
    if 3/2 < worstPlayer.2.1 then
      { awards := st.awards ++
          [("🐴 Donkey",
            { winner := worstPlayer.1
              description :=
                "Made questionable decisions and played too many weak hands"
              stat := "Played " ++ toString (jsRound (worstPlayer.2.2 * 100)) ++
                "% of hands with poor results" })]
        awardedPlayers := st.awardedPlayers ++ [worstPlayer.1] }
    else st
  | none => st

/-- Donkey as the method version runs it. -/
def awardDonkey (players : Players) (st : AwardsState) : AwardsState :=
  applyDonkey (donkeyCandidatesOf players st) st

/-- ABC Player (src/unnamed/part_001 lines 1314-1342 and 297-325). -/
def awardAbcPlayer (players : Players) (st : AwardsState) : AwardsState :=
  let abcCandidates := players.filter (fun kv =>
    if st.awardedPlayers.contains kv.1 || kv.2.hands_played ≤ 5 then false
    else
      let aggroRatio := (kv.2.aggressive_actions : Rat) /
        ((jsOrN kv.2.hands_played 1 : Nat) : Rat)
      decide (3/20 < aggroRatio) && decide (aggroRatio < 7/20))
  match pickMaxBy (fun data => (data.showdown_wins : Rat)) 0
      abcCandidates with
  | some bestAbc =>
    { awards := st.awards ++
        [("📚 ABC Player",
          { winner := bestAbc
            description := "Played textbook poker, predictable as clockwork"
            stat := "By-the-book basic strategy" })]
      awardedPlayers := st.awardedPlayers ++ [bestAbc] }
  | none => st

/-- Bubble Boy (src/unnamed/part_001 lines 1344-1358 and 327-341):
a placement award, exempt from the `awardedPlayers` exclusion. -/
def awardBubbleBoy (players : Players) (st : AwardsState) : AwardsState :=
  if 4 ≤ players.length then
    let bubblePosition := (players.length + 1) / 2
    let bubbleCandidates :=
      players.filter (fun kv => kv.2.final_position = some bubblePosition)
    match bubbleCandidates.head? with
    | some c =>
      { st with awards := st.awards ++
          [("💀 Bubble Boy",
            { winner := c.1
              description :=
                "Knocked out just before the money in heartbreaking fashion"
              stat := "So close to cashing, yet so far" })] }
    | none => st
  else st

/-- The award pipeline shared verbatim by both copies of
`calculateAwards`, from the placement awards through 7-2 Hero. -/
def stepsThroughHero (players : Players) : AwardsState :=
  let st : AwardsState := { awards := [], awardedPlayers := [] }
  let st := awardChampion players st
  let st := awardRunnerUp players st
  let st := awardMostAggressive players st
  let st := awardCallingStation players st
  let st := awardTightestPlayer players st
  let st := awardComebackKid players st
  let st := awardYolo players st
  let st := awardDoggyPaddling players st
  let st := awardHollywoodActor players st
  awardSevenTwoHero players st

/-- `getSampleAwards()` (src/unnamed/part_001 lines 1363-1381). -/
def getSampleAwards : List (String × AwardRecord) :=
  [("🏆 Tournament Champion",
    { winner := "Player1"
      description := "Survived the chaos and claimed the crown"
      stat := "Outlasted 5 other players" }),
   ("🔥 Most Aggressive",
    { winner := "Player2"
      description := "Fearless bets and raises kept everyone on edge"
      stat := "Never met a pot they didn't want to steal" }),
   ("📞 Calling Station",
    { winner := "Player3"
      description := "Never saw a bet they didn't want to call"
      stat := "The human slot machine" })]

/-- The method `PokerAwardsParser.calculateAwards(playersData)`
(src/unnamed/part_001 lines 1019-1361). The source's opening filter of
the `tournament_info` key corresponds to passing the `players`
component. -/
def PokerAwardsParser.calculateAwards (players : Players) :
    List (String × AwardRecord) :=
  if players.length = 0 then getSampleAwards
  else
    let st := stepsThroughHero players
    let st := awardDonkey players st
    let st := awardAbcPlayer players st
    let st := awardBubbleBoy players st
    st.awards

/-- The standalone `calculateAwards(playersData)` fragment
(src/unnamed/part_001 lines 1-345). It returns `{}` on an empty map,
and its duplicated `if (donkeyCandidates.length > 0) {` line (lines
282-283) scopes the ABC Player block, the Bubble Boy block and the
`return awards` statement inside the Donkey guard, so the function
falls off its end — returning `undefined`, modelled `none` — whenever
the Donkey candidate list is empty. -/
def calculateAwardsStandalone (players : Players) :
    Option (List (String × AwardRecord)) :=
  if players.length = 0 then some []
  else
    let st := stepsThroughHero players
    let donkeyCandidates := donkeyCandidatesOf players st
    if 0 < donkeyCandidates.length then
      let st := applyDonkey donkeyCandidates st
      let st := awardAbcPlayer players st
      let st := awardBubbleBoy players st
      some st.awards
    else none

/-- `extractPreparationHClub(playersData)`
(src/unnamed/part_001 lines 996-1017). -/
structure PrepEntry where
  victim : String
  victim_hand : String
  winner : String
  winner_hand : String
  description : String
deriving DecidableEq

def extractPreparationHClub (players : Players) : List PrepEntry :=
  players.foldl (fun acc kv =>
    acc ++ kv.2.bad_beats.map (fun badBeat =>
      { victim := kv.1
        victim_hand := badBeat.victim_hand
        winner := badBeat.winner
        winner_hand := badBeat.winner_hand
        description := badBeat.description })) []

/-- The ambient clock: what `new Date().toLocaleDateString()` and
`new Date().toISOString()` return at the moment of the call. -/
structure Clock where
  localeDate : String
  iso : String
deriving DecidableEq

/-- The summary record returned by `parseTxt`. -/
structure TournamentSummary where
  tournament_date : String
  tournament_id : String
  total_players : Nat
  awards : List (String × AwardRecord)
  preparation_h_club : List PrepEntry
  last_updated : String
deriving DecidableEq

/-- `PokerAwardsParser.parseTxt(content)` (src/unnamed/part_001
lines 602-627). No step of the modelled pipeline can throw, so the
`catch` branch is unreachable. -/
def PokerAwardsParser.parseTxt (clock : Clock) (t : Transcript) :
    TournamentSummary :=
  let playersData := extractFromTxt t
  let playerCount := playersData.players.length
  let awards := PokerAwardsParser.calculateAwards playersData.players
  let tournamentInfo := playersData.tournament_info
  let preparationHClub := extractPreparationHClub playersData.players
  { tournament_date := jsOrStr tournamentInfo.date clock.localeDate
    tournament_id := jsOrStr tournamentInfo.id "Unknown"
    total_players := jsOrNat (some tournamentInfo.player_count) playerCount
    awards := awards
    preparation_h_club := preparationHClub
    last_updated := clock.iso }

/-! ## Infrastructure lemmas -/

theorem isPrefixChars_iff : ∀ (p l : List Char),
    isPrefixChars p l = true ↔ p <+: l
  | [], l => by simp [isPrefixChars]
  | a :: pa, [] => by simp [isPrefixChars]
  | a :: pa, b :: lb => by
    simp only [isPrefixChars, Bool.and_eq_true, beq_iff_eq,
      List.cons_prefix_cons, isPrefixChars_iff pa lb]

theorem infixChars_iff : ∀ (p l : List Char), infixChars p l = true ↔ p <:+: l
  | p, [] => by simp [infixChars, List.isEmpty_iff]
  | p, c :: rest => by
    simp [infixChars, isPrefixChars_iff, infixChars_iff p rest,
      List.infix_cons_iff]

theorem strIncludes_iff (s pat : String) :
    strIncludes s pat = true ↔ pat.data <:+: s.data :=
  infixChars_iff _ _

/-- If `s` does not contain `p`, it does not contain any extension of
`p` either. -/
theorem strIncludes_false_mono {s p q : String} (hpq : p.data <:+: q.data)
    (h : strIncludes s p = false) : strIncludes s q = false := by
  rw [← Bool.not_eq_true] at h ⊢
  intro hq
  exact h (strIncludes_iff s p |>.mpr (hpq.trans ((strIncludes_iff s q).mp hq)))

theorem getPlayer_cons (k : String) (v : PlayerStat) (rest : Players)
    (n : String) :
    getPlayer ((k, v) :: rest) n = if k = n then some v else getPlayer rest n :=
  rfl

theorem getPlayer_mapVals (ps : Players) (g : PlayerStat → PlayerStat)
    (n : String) :
    getPlayer (ps.map (fun kv => (kv.1, g kv.2))) n =
      (getPlayer ps n).map g := by
  induction ps with
  | nil => rfl
  | cons kv rest ih =>
    obtain ⟨k, v⟩ := kv
    rw [List.map_cons, getPlayer_cons, getPlayer_cons]
    by_cases h : k = n
    · rw [if_pos h, if_pos h]; rfl
    · rw [if_neg h, if_neg h]; exact ih

theorem getPlayer_updatePlayer_self (ps : Players) (n : String)
    (f : PlayerStat → PlayerStat) :
    getPlayer (updatePlayer ps n f) n = (getPlayer ps n).map f := by
  induction ps with
  | nil => rfl
  | cons kv rest ih =>
    obtain ⟨k, v⟩ := kv
    simp only [updatePlayer, List.map_cons] at ih ⊢
    by_cases h : k = n
    · rw [if_pos h, getPlayer_cons, getPlayer_cons, if_pos h, if_pos h]; rfl
    · rw [if_neg h, getPlayer_cons, getPlayer_cons, if_neg h, if_neg h]
      exact ih

theorem getPlayer_updatePlayer_other (ps : Players) {m n : String}
    (h : m ≠ n) (f : PlayerStat → PlayerStat) :
    getPlayer (updatePlayer ps n f) m = getPlayer ps m := by
  induction ps with
  | nil => rfl
  | cons kv rest ih =>
    obtain ⟨k, v⟩ := kv
    simp only [updatePlayer, List.map_cons] at ih ⊢
    by_cases hk : k = n
    · have hkm : k ≠ m := fun hh => h (hh ▸ hk)
      rw [if_pos hk, getPlayer_cons, getPlayer_cons, if_neg hkm, if_neg hkm]
      exact ih
    · rw [if_neg hk, getPlayer_cons, getPlayer_cons]
      by_cases hm : k = m
      · rw [if_pos hm, if_pos hm]
      · rw [if_neg hm, if_neg hm]; exact ih

theorem getPlayer_isSome_updatePlayer (ps : Players) (n m : String)
    (f : PlayerStat → PlayerStat) :
    (getPlayer (updatePlayer ps n f) m).isSome = (getPlayer ps m).isSome := by
  by_cases h : m = n
  · subst h; rw [getPlayer_updatePlayer_self]; simp
  · rw [getPlayer_updatePlayer_other ps h]

/-! ## C5 — hand-strength classifier -/

/-- **C5.** The hand-strength classifier is a pure total function on
description strings (a Lean `def`): its numeric tiers respect the order
high card < pair < two pair < three-of-a-kind < straight < flush <
full house < four-of-a-kind < straight flush < royal flush (witnessed
on canonical descriptions of each shape); two pair of premium ranks
(aces, kings, queens) gets a strictly higher tier than generic two pair
but strictly below three-of-a-kind; and every description containing
none of the recognised key phrases classifies as the high-card tier
with canonical label `"high card"` rather than erroring. -/
theorem C5_hand_strength_classifier :
    (evaluateMadeHandStrength "high card Ace" <
        evaluateMadeHandStrength "a pair of Nines" ∧
      evaluateMadeHandStrength "a pair of Nines" <
        evaluateMadeHandStrength "two pair, Nines and Fives" ∧
      evaluateMadeHandStrength "two pair, Nines and Fives" <
        evaluateMadeHandStrength "three of a kind, Nines" ∧
      evaluateMadeHandStrength "three of a kind, Nines" <
        evaluateMadeHandStrength "a straight, Five to Nine" ∧
      evaluateMadeHandStrength "a straight, Five to Nine" <
        evaluateMadeHandStrength "a flush, Ace high" ∧
      evaluateMadeHandStrength "a flush, Ace high" <
        evaluateMadeHandStrength "a full house, Nines full of Fives" ∧
      evaluateMadeHandStrength "a full house, Nines full of Fives" <
        evaluateMadeHandStrength "four of a kind, Nines" ∧
      evaluateMadeHandStrength "four of a kind, Nines" <
        evaluateMadeHandStrength "a straight flush, Five to Nine" ∧
      evaluateMadeHandStrength "a straight flush, Five to Nine" <
        evaluateMadeHandStrength "a Royal Flush") ∧
    (evaluateMadeHandStrength "two pair, Nines and Fives" <
        evaluateMadeHandStrength "two pair, Aces and Fives" ∧
      evaluateMadeHandStrength "two pair, Aces and Fives" <
        evaluateMadeHandStrength "three of a kind, Nines") ∧
    (∀ s : String,
      strIncludes (strToLower s) "royal flush" = false →
      strIncludes (strToLower s) "straight flush" = false →
      strIncludes (strToLower s) "four of a kind" = false →
      strIncludes (strToLower s) "full house" = false →
      strIncludes (strToLower s) "flush" = false →
      strIncludes (strToLower s) "straight" = false →
      strIncludes (strToLower s) "three of a kind" = false →
      strIncludes (strToLower s) "two pair" = false →
      strIncludes (strToLower s) "pair of" = false →
      evaluateMadeHandStrength s = 50 ∧
        getSimpleHandDescription s = "high card") := by
  refine ⟨by decide, by decide, ?_⟩
  intro s h1 h2 h3 h4 h5 h6 h7 h8 h9
  have hpa : strIncludes (strToLower s) "pair of aces" = false :=
    strIncludes_false_mono (by decide) h9
  have hpk : strIncludes (strToLower s) "pair of kings" = false :=
    strIncludes_false_mono (by decide) h9
  have hpq : strIncludes (strToLower s) "pair of queens" = false :=
    strIncludes_false_mono (by decide) h9
  have hpj : strIncludes (strToLower s) "pair of jacks" = false :=
    strIncludes_false_mono (by decide) h9
  constructor
  · unfold evaluateMadeHandStrength
    simp only [h1, h2, h3, h4, h5, h6, h7, h8, h9, Bool.false_and,
      if_false, Bool.false_eq_true]
  · unfold getSimpleHandDescription
    simp only [h1, h2, h3, h4, h5, h6, h7, h8, h9, hpa, hpk, hpq, hpj,
      Bool.false_and, if_false, Bool.false_eq_true]

/-- Closed witness for `C5_hand_strength_classifier`: the universally
quantified clause applied at the concrete unrecognised description
`"mystery hand"`. -/
theorem C5_hand_strength_classifier_witness :
    (strIncludes (strToLower "mystery hand") "royal flush" = false ∧
      strIncludes (strToLower "mystery hand") "two pair" = false ∧
      strIncludes (strToLower "mystery hand") "pair of" = false) ∧
    evaluateMadeHandStrength "mystery hand" = 50 ∧
      getSimpleHandDescription "mystery hand" = "high card" :=
  ⟨⟨by decide, by decide, by decide⟩,
    C5_hand_strength_classifier.2.2 "mystery hand" (by decide) (by decide)
      (by decide) (by decide) (by decide) (by decide) (by decide) (by decide)
      (by decide)⟩

/-! ## C6 — split pots leave bad-beat state untouched -/

theorem analyze_eq_of_multi_or_split (hasShowdown : Bool)
    (reveals : List ShowEntry) (winners : List (String × Nat)) (split : Bool)
    (players : Players) (h : 2 ≤ winners.length ∨ split = true) :
    analyzeShowdownForBadBeats hasShowdown reveals winners split players =
      players := by
  unfold analyzeShowdownForBadBeats
  rcases h with hlen | hsplit
  · have h1 : 1 < winners.length := by omega
    cases hasShowdown <;> simp [h1]
  · subst hsplit
    cases hasShowdown <;> simp

/-- **C6.** For every hand with two or more pot-collection events, or
with explicit split/tie language, the bad-beat detector leaves every
player's `bad_beats` and `suckouts` lists unchanged — no `BadBeatInfo`
or `SuckoutInfo` entry is appended, whatever hand strengths were
shown. -/
theorem C6_split_pot_no_entries (hasShowdown : Bool)
    (reveals : List ShowEntry) (winners : List (String × Nat)) (split : Bool)
    (players : Players) (h : 2 ≤ winners.length ∨ split = true)
    (name : String) (st : PlayerStat)
    (hst : getPlayer players name = some st) :
    ∃ st', getPlayer (analyzeShowdownForBadBeats hasShowdown reveals winners
        split players) name = some st' ∧
      st'.bad_beats = st.bad_beats ∧ st'.suckouts = st.suckouts := by
  refine ⟨st, ?_, rfl, rfl⟩
  rw [analyze_eq_of_multi_or_split hasShowdown reveals winners split players h]
  exact hst

/-- Closed witness for `C6_split_pot_no_entries`: a two-collection hand
showing a full house against a pair appends nothing. -/
theorem C6_split_pot_no_entries_witness :
    (2 ≤ ([("a", 50), ("b", 50)] : List (String × Nat)).length ∨
        false = true) ∧
    getPlayer [("a", ({} : PlayerStat))] "a" = some {} ∧
    ∃ st', getPlayer (analyzeShowdownForBadBeats true
        [⟨"a", "Ah Ad", "a full house, Aces full of Kings", none⟩,
         ⟨"b", "2c 7d", "a pair of Deuces", none⟩]
        [("a", 50), ("b", 50)] false [("a", {})]) "a" = some st' ∧
      st'.bad_beats = PlayerStat.bad_beats {} ∧
      st'.suckouts = PlayerStat.suckouts {} :=
  ⟨Or.inl (by decide), by decide,
    C6_split_pot_no_entries true
      [⟨"a", "Ah Ad", "a full house, Aces full of Kings", none⟩,
       ⟨"b", "2c 7d", "a pair of Deuces", none⟩]
      [("a", 50), ("b", 50)] false [("a", {})] (Or.inl (by decide))
      "a" {} (by decide)⟩

/-! ## C1 — the genuine-bad-beat recording rule -/

theorem find?_unique {α : Type} {p : α → Bool} {l : List α} {a : α}
    (ha : a ∈ l) (hpa : p a = true)
    (huniq : ∀ b ∈ l, p b = true → b = a) : l.find? p = some a := by
  induction l with
  | nil => cases ha
  | cons x xs ih =>
    by_cases hx : p x = true
    · rw [List.find?_cons_of_pos _ hx]
      exact congrArg some (huniq x (List.mem_cons_self x xs) hx)
    · rw [List.find?_cons_of_neg _ hx]
      rcases List.mem_cons.mp ha with rfl | ha'
      · exact absurd hpa hx
      · exact ih ha' (fun b hb hpb => huniq b (List.mem_cons_of_mem x hb) hpb)

theorem isGenuine_iff (w : String) (victim winEntry : ShowEntry) :
    isGenuineBadBeat (enrichShow w victim) (enrichShow w winEntry) = true ↔
      400 ≤ evaluateMadeHandStrength victim.desc ∨
        (300 ≤ evaluateMadeHandStrength victim.desc ∧
          evaluateMadeHandStrength victim.desc <
            evaluateMadeHandStrength winEntry.desc) := by
  simp only [isGenuineBadBeat, enrichShow]
  split_ifs with h1 h2 <;> simp_all

theorem getPlayer_pushBadBeat_other (w : String) (lh wh : PlayerHand)
    (ps : Players) {m : String} (hm1 : m ≠ lh.player) (hm2 : m ≠ w) :
    getPlayer (pushBadBeat w lh wh ps) m = getPlayer ps m := by
  unfold pushBadBeat
  rw [getPlayer_updatePlayer_other _ hm2, getPlayer_updatePlayer_other _ hm1]

theorem foldBB_frame (w : String) (wh : PlayerHand) (l : List PlayerHand)
    (ps : Players) {m : String} (hm : ∀ lh ∈ l, m ≠ lh.player) (hmw : m ≠ w) :
    getPlayer (l.foldl (fun ps lh =>
        if isGenuineBadBeat lh wh then pushBadBeat w lh wh ps else ps) ps) m =
      getPlayer ps m := by
  induction l generalizing ps with
  | nil => rfl
  | cons lh rest ih =>
    rw [List.foldl_cons]
    rw [ih _ (fun x hx => hm x (List.mem_cons_of_mem lh hx))]
    by_cases hg : isGenuineBadBeat lh wh
    · rw [if_pos hg,
        getPlayer_pushBadBeat_other w lh wh ps
          (hm lh (List.mem_cons_self lh rest)) hmw]
    · rw [if_neg hg]

theorem foldBB_winner (w : String) (wh : PlayerHand) (l : List PlayerHand)
    (ps : Players) (hlw : ∀ lh ∈ l, lh.player ≠ w) :
    getPlayer (l.foldl (fun ps lh =>
        if isGenuineBadBeat lh wh then pushBadBeat w lh wh ps else ps) ps) w =
      (getPlayer ps w).map (fun st =>
        { st with suckouts := (st.suckouts ++
            (l.filter (fun lh => isGenuineBadBeat lh wh)).map
              (fun lh => mkSuckoutInfo w lh wh)) }) := by
  induction l generalizing ps with
  | nil =>
    simp only [List.foldl_nil, List.filter_nil, List.map_nil,
      List.append_nil]
    cases getPlayer ps w <;> rfl
  | cons lh rest ih =>
    have hlhw : lh.player ≠ w := hlw lh (List.mem_cons_self lh rest)
    have hrest : ∀ x ∈ rest, x.player ≠ w :=
      fun x hx => hlw x (List.mem_cons_of_mem lh hx)
    rw [List.foldl_cons]
    by_cases hg : isGenuineBadBeat lh wh
    · rw [if_pos hg, ih _ hrest]
      unfold pushBadBeat
      rw [getPlayer_updatePlayer_self,
        getPlayer_updatePlayer_other _ (fun hh => hlhw hh.symm)]
      rw [List.filter_cons_of_pos
        (p := fun lh => isGenuineBadBeat lh wh) hg, List.map_cons]
      cases getPlayer ps w <;> simp
    · rw [if_neg hg, ih _ hrest,
        List.filter_cons_of_neg
          (p := fun lh => isGenuineBadBeat lh wh) (by simpa using hg)]

theorem foldBB_victim (w : String) (wh : PlayerHand) (l : List PlayerHand)
    (ps : Players) (v : PlayerHand) (hv : v ∈ l)
    (hnodup : (l.map (fun h => h.player)).Nodup) (hvw : v.player ≠ w) :
    getPlayer (l.foldl (fun ps lh =>
        if isGenuineBadBeat lh wh then pushBadBeat w lh wh ps else ps) ps)
        v.player =
      (getPlayer ps v.player).map (fun st =>
        if isGenuineBadBeat v wh then
          { st with bad_beats := st.bad_beats ++ [mkBadBeatInfo w v wh] }
        else st) := by
  induction l generalizing ps with
  | nil => cases hv
  | cons lh rest ih =>
    rw [List.map_cons, List.nodup_cons] at hnodup
    rw [List.foldl_cons]
    rcases List.mem_cons.mp hv with rfl | hv'
    · have hrest : ∀ x ∈ rest, v.player ≠ x.player := by
        intro x hx heq
        exact hnodup.1 (heq ▸ List.mem_map_of_mem (fun h => h.player) hx)
      rw [foldBB_frame w wh rest _ hrest hvw]
      by_cases hg : isGenuineBadBeat v wh
      · rw [if_pos hg]
        unfold pushBadBeat
        rw [getPlayer_updatePlayer_other _ hvw, getPlayer_updatePlayer_self]
        cases getPlayer ps v.player <;> simp [hg]
      · rw [if_neg hg]
        cases hps : getPlayer ps v.player <;> simp [hg]
    · have hne : v.player ≠ lh.player := by
        intro heq
        exact hnodup.1 (heq ▸ List.mem_map_of_mem (fun h => h.player) hv')
      by_cases hg : isGenuineBadBeat lh wh
      · rw [if_pos hg, ih _ hv' hnodup.2,
          getPlayer_pushBadBeat_other w lh wh ps hne hvw]
      · rw [if_neg hg, ih _ hv' hnodup.2]

theorem optMap_some {α β : Type} (f : α → β) (a : α) :
    Option.map f (some a) = some (f a) := rfl

theorem analyze_single_winner (reveals : List ShowEntry) (w : String)
    (amt : Nat) (players : Players) (hw : w ≠ "")
    (hlen : 2 ≤ reveals.length) (wh : PlayerHand)
    (hfind : (reveals.map (enrichShow w)).find? (fun h => h.won) = some wh) :
    analyzeShowdownForBadBeats true reveals [(w, amt)] false players =
      ((reveals.map (enrichShow w)).filter (fun h => !h.won)).foldl
        (fun ps lh =>
          if isGenuineBadBeat lh wh then pushBadBeat w lh wh ps else ps)
        players := by
  unfold analyzeShowdownForBadBeats
  simp [hlen, hw, hfind]

/-- The uniquely-revealed winner: under name-distinctness, `find?` over
the enriched reveals returns the winner's reveal. -/
theorem find_winner_reveal (reveals : List ShowEntry) (w : String)
    (winEntry : ShowEntry)
    (hnodup : (reveals.map (fun e => e.player)).Nodup)
    (hwin : winEntry ∈ reveals) (hwp : winEntry.player = w) :
    (reveals.map (enrichShow w)).find? (fun h => h.won) =
      some (enrichShow w winEntry) := by
  rw [List.find?_map]
  have : reveals.find? ((fun h => h.won) ∘ enrichShow w) = some winEntry := by
    apply find?_unique hwin
    · simp [enrichShow, hwp]
    · intro b hb hpb
      simp only [Function.comp, enrichShow, beq_iff_eq] at hpb
      exact List.inj_on_of_nodup_map hnodup hb hwin (by rw [hpb, hwp])
  rw [this]
  rfl

/-- **C1 (amended).** In a showdown hand with exactly one pot-collection
event, at least two revealed hands, no split-pot language, and the
collector among the reveals (names pairwise distinct, collector and
victim registered), a losing revealed hand is recorded as a genuine bad
beat — one `BadBeatInfo` appended to the victim's list and the mirrored
`SuckoutInfo` appended to the winner's list — if and only if its
classified strength tier is three-of-a-kind or stronger (≥ 400), or its
tier is premium-two-pair-or-better (≥ 300, the tier of two pair
containing aces, kings or queens) and strictly below the winner's tier;
in particular every loser holding a full house or better (≥ 700) that
lost to a flush or better yields such a pair of entries. (The original
claim's "two-pair-or-better" is refuted by `C1_counterexample`: generic
two pair classifies at tier 200 and is never recorded.) -/
theorem C1_genuine_bad_beat_iff (reveals : List ShowEntry) (w : String)
    (amt : Nat) (players : Players) (victim winEntry : ShowEntry)
    (vSt wSt : PlayerStat)
    (hw : w ≠ "") (hlen : 2 ≤ reveals.length)
    (hnodup : (reveals.map (fun e => e.player)).Nodup)
    (hwin : winEntry ∈ reveals) (hwp : winEntry.player = w)
    (hv : victim ∈ reveals) (hvl : victim.player ≠ w)
    (hvs : getPlayer players victim.player = some vSt)
    (hws : getPlayer players w = some wSt) :
    (getPlayer (analyzeShowdownForBadBeats true reveals [(w, amt)] false
        players) victim.player).map (fun st => st.bad_beats) =
      some (vSt.bad_beats ++
        (if 400 ≤ evaluateMadeHandStrength victim.desc ∨
            (300 ≤ evaluateMadeHandStrength victim.desc ∧
              evaluateMadeHandStrength victim.desc <
                evaluateMadeHandStrength winEntry.desc) then
          [mkBadBeatInfo w (enrichShow w victim) (enrichShow w winEntry)]
        else [])) ∧
    (getPlayer (analyzeShowdownForBadBeats true reveals [(w, amt)] false
        players) w).map (fun st => st.suckouts) =
      some (wSt.suckouts ++
        ((reveals.filter (fun e => !(e.player == w))).filter
            (fun e => isGenuineBadBeat (enrichShow w e)
              (enrichShow w winEntry))).map
          (fun e => mkSuckoutInfo w (enrichShow w e)
            (enrichShow w winEntry))) ∧
    (mkSuckoutInfo w (enrichShow w victim) (enrichShow w winEntry) ∈
        ((reveals.filter (fun e => !(e.player == w))).filter
            (fun e => isGenuineBadBeat (enrichShow w e)
              (enrichShow w winEntry))).map
          (fun e => mkSuckoutInfo w (enrichShow w e)
            (enrichShow w winEntry)) ↔
      (400 ≤ evaluateMadeHandStrength victim.desc ∨
        (300 ≤ evaluateMadeHandStrength victim.desc ∧
          evaluateMadeHandStrength victim.desc <
            evaluateMadeHandStrength winEntry.desc))) ∧
    (700 ≤ evaluateMadeHandStrength victim.desc →
      600 ≤ evaluateMadeHandStrength winEntry.desc →
      (400 ≤ evaluateMadeHandStrength victim.desc ∨
        (300 ≤ evaluateMadeHandStrength victim.desc ∧
          evaluateMadeHandStrength victim.desc <
            evaluateMadeHandStrength winEntry.desc))) := by
  have hfind := find_winner_reveal reveals w winEntry hnodup hwin hwp
  rw [analyze_single_winner reveals w amt players hw hlen _ hfind]
  set wh := enrichShow w winEntry with hwh
  have hfm : (reveals.map (enrichShow w)).filter (fun h => !h.won) =
      (reveals.filter (fun e => !(e.player == w))).map (enrichShow w) := by
    rw [List.filter_map]
    rfl
  rw [hfm]
  set X := reveals.filter (fun e => !(e.player == w)) with hX
  have hXsub : List.Sublist X reveals := List.filter_sublist reveals
  have hXnodup : ((X.map (enrichShow w)).map
      (fun h => h.player)).Nodup := by
    rw [List.map_map]
    have : X.map ((fun h => PlayerHand.player h) ∘ enrichShow w) =
        X.map (fun e => e.player) := rfl
    rw [this]
    exact List.Nodup.sublist (hXsub.map _) hnodup
  have hXw : ∀ lh ∈ X.map (enrichShow w), lh.player ≠ w := by
    intro lh hlh
    obtain ⟨e, he, rfl⟩ := List.mem_map.mp hlh
    have := List.of_mem_filter he
    simpa [enrichShow] using this
  have hvX : victim ∈ X := by
    rw [hX]
    exact List.mem_filter.mpr ⟨hv, by simpa using hvl⟩
  have hvXm : enrichShow w victim ∈ X.map (enrichShow w) :=
    List.mem_map_of_mem _ hvX
  have hgen := isGenuine_iff w victim winEntry
  refine ⟨?_, ?_, ?_, fun h _ => Or.inl (by omega)⟩
  · have hfv := foldBB_victim w wh (X.map (enrichShow w)) players
      (enrichShow w victim) hvXm hXnodup (by simpa [enrichShow] using hvl)
    rw [show (enrichShow w victim).player = victim.player from rfl] at hfv
    rw [hfv, hvs, optMap_some, optMap_some]
    by_cases hc : 400 ≤ evaluateMadeHandStrength victim.desc ∨
        (300 ≤ evaluateMadeHandStrength victim.desc ∧
          evaluateMadeHandStrength victim.desc <
            evaluateMadeHandStrength winEntry.desc)
    · rw [if_pos (hgen.mpr hc), if_pos hc]
    · rw [if_neg (fun hb => hc (hgen.mp hb)), if_neg hc]
      simp
  · rw [foldBB_winner w wh (X.map (enrichShow w)) players hXw, hws,
      optMap_some, optMap_some]
    congr 1
    rw [List.filter_map, List.map_map]
    rfl
  · constructor
    · intro hmem
      obtain ⟨e, he, heq⟩ := List.mem_map.mp hmem
      have heX : e ∈ X := List.mem_of_mem_filter he
      have heR : e ∈ reveals := List.mem_of_mem_filter heX
      have hcond : isGenuineBadBeat (enrichShow w e)
          (enrichShow w winEntry) = true := by
        have := List.mem_filter.mp he
        simpa using this.2
      have hpe : e.player = victim.player := by
        have := congrArg SuckoutInfo.victim heq
        simpa [mkSuckoutInfo, enrichShow] using this
      have hev : e = victim := List.inj_on_of_nodup_map hnodup heR hv hpe
      subst hev
      exact hgen.mp hcond
    · intro hc
      refine List.mem_map_of_mem _ ?_
      exact List.mem_filter.mpr ⟨hvX, hgen.mpr hc⟩

/-- A revealed losing hand for the C1 witness scenario. -/
def bbWitVictim : ShowEntry := ⟨"vic", "5h 5d", "three of a kind, Fives", none⟩

/-- The revealed winning hand for the C1 witness scenario. -/
def bbWitWinner : ShowEntry := ⟨"champ", "Ah Kh", "a flush, Ace high", none⟩

/-- Closed witness for `C1_genuine_bad_beat_iff`: trips losing to a
flush at a single-collection showdown records exactly one bad beat. -/
theorem C1_genuine_bad_beat_iff_witness :
    (("champ" : String) ≠ "" ∧
      2 ≤ ([bbWitVictim, bbWitWinner] : List ShowEntry).length ∧
      bbWitVictim.player ≠ "champ") ∧
    (getPlayer (analyzeShowdownForBadBeats true [bbWitVictim, bbWitWinner]
        [("champ", 200)] false [("vic", {}), ("champ", {})])
        bbWitVictim.player).map (fun st => st.bad_beats) =
      some [mkBadBeatInfo "champ" (enrichShow "champ" bbWitVictim)
        (enrichShow "champ" bbWitWinner)] := by
  refine ⟨⟨by decide, by decide, by decide⟩, ?_⟩
  have h := C1_genuine_bad_beat_iff [bbWitVictim, bbWitWinner] "champ" 200
    [("vic", {}), ("champ", {})] bbWitVictim bbWitWinner {} {}
    (by decide) (by decide) (by decide) (by decide) (by decide) (by decide)
    (by decide) (by decide) (by decide)
  rw [h.1]
  decide

/-- Counterexample to C1 as literally stated: a loser whose classified
tier is the generic two-pair tier (200) — "two-pair-or-better" — and
strictly below the winner's straight (500), at a showdown with exactly
one pot-collection event, two revealed hands and no split language,
yet the detector appends nothing to either player's record. -/
theorem C1_counterexample :
    evaluateMadeHandStrength "two pair, Fives and Treys" = 200 ∧
    evaluateMadeHandStrength "two pair, Fives and Treys" =
      evaluateMadeHandStrength "two pair, Nines and Fives" ∧
    evaluateMadeHandStrength "two pair, Fives and Treys" <
      evaluateMadeHandStrength "a straight, Five to Nine" ∧
    getPlayer (analyzeShowdownForBadBeats true
        [⟨"loser", "5h 3d", "two pair, Fives and Treys", none⟩,
         ⟨"champ", "9c 8c", "a straight, Five to Nine", none⟩]
        [("champ", 100)] false [("loser", {}), ("champ", {})]) "loser" =
      some {} ∧
    getPlayer (analyzeShowdownForBadBeats true
        [⟨"loser", "5h 3d", "two pair, Fives and Treys", none⟩,
         ⟨"champ", "9c 8c", "a straight, Five to Nine", none⟩]
        [("champ", 100)] false [("loser", {}), ("champ", {})]) "champ" =
      some {} := by
  refine ⟨by decide, by decide, by decide, ?_, ?_⟩ <;> decide

/-! ## C7 — final-position resolution -/

theorem mem_insertDescBy {α : Type} (key : α → Rat) (x y : α) :
    ∀ l : List α, (y ∈ insertDescBy key x l ↔ y = x ∨ y ∈ l)
  | [] => by simp [insertDescBy]
  | z :: zs => by
    unfold insertDescBy
    by_cases h : key z ≤ key x
    · rw [if_pos h]
      simp
    · rw [if_neg h]
      rw [List.mem_cons, List.mem_cons, mem_insertDescBy key x y zs]
      tauto

theorem mem_jsSortDesc {α : Type} (key : α → Rat) (y : α) :
    ∀ l : List α, (y ∈ jsSortDesc key l ↔ y ∈ l)
  | [] => Iff.rfl
  | x :: xs => by
    unfold jsSortDesc
    rw [mem_insertDescBy, mem_jsSortDesc key y xs, List.mem_cons]

theorem head_jsSortDesc_of_max {α : Type} (key : α → Rat) (m : α) :
    ∀ l : List α, m ∈ l → (∀ x ∈ l, x ≠ m → key x < key m) →
      (jsSortDesc key l).head? = some m
  | [], hm, _ => absurd hm (List.not_mem_nil m)
  | x :: xs, hm, hmax => by
    by_cases hx : x = m
    · subst hx
      unfold jsSortDesc
      cases hs : jsSortDesc key xs with
      | nil => rfl
      | cons y ys =>
        have hy : y ∈ xs := by
          rw [← mem_jsSortDesc key y xs, hs]
          exact List.mem_cons_self y ys
        have hle : key y ≤ key x := by
          rcases eq_or_ne y x with rfl | hne
          · exact le_refl _
          · exact le_of_lt (hmax y (List.mem_cons_of_mem x hy) hne)
        unfold insertDescBy
        rw [if_pos hle]
        rfl
    · have hmxs : m ∈ xs := (List.mem_cons.mp hm).resolve_left
        (fun hh => hx hh.symm)
      have ihh := head_jsSortDesc_of_max key m xs hmxs
        (fun z hz hne => hmax z (List.mem_cons_of_mem x hz) hne)
      unfold jsSortDesc
      cases hs : jsSortDesc key xs with
      | nil => rw [hs] at ihh; cases ihh
      | cons y ys =>
        rw [hs] at ihh
        have hy : y = m := by simpa using ihh
        subst hy
        have hlt : key x < key y :=
          hmax x (List.mem_cons_self x xs) hx
        unfold insertDescBy
        rw [if_neg (not_le.mpr hlt)]
        rfl

theorem find?_congr {α : Type} (p q : α → Bool) :
    ∀ l : List α, (∀ x ∈ l, p x = q x) → l.find? p = l.find? q
  | [], _ => rfl
  | x :: xs, h => by
    have hx := h x (List.mem_cons_self x xs)
    by_cases hp : p x = true
    · rw [List.find?_cons_of_pos _ hp, List.find?_cons_of_pos _ (hx ▸ hp)]
    · rw [List.find?_cons_of_neg _ hp, List.find?_cons_of_neg _ (hx ▸ hp)]
      exact find?_congr p q xs (fun y hy => h y (List.mem_cons_of_mem x hy))

theorem assignSecond_eq (players : Players) (w : String) :
    ∀ fs : List String, assignSecond players w fs =
      match fs.find? (fun f =>
          decide (f ≠ w ∧ (getPlayer players f).isSome)) with
      | some f =>
        updatePlayer players f (fun st => { st with final_position := some 2 })
      | none => players
  | [] => rfl
  | f :: rest => by
    unfold assignSecond
    by_cases h : f ≠ w ∧ (getPlayer players f).isSome
    · rw [if_pos h, List.find?_cons_of_pos _ (by simpa using h)]
    · rw [if_neg h, List.find?_cons_of_neg _ (by simpa using h),
        assignSecond_eq players w rest]

theorem getPlayer_mapKeyVals (g : String → PlayerStat → PlayerStat)
    (n : String) : ∀ ps : Players,
    getPlayer (ps.map (fun kv => (kv.1, g kv.1 kv.2))) n =
      (getPlayer ps n).map (g n)
  | [] => rfl
  | (k, v) :: rest => by
    rw [List.map_cons, getPlayer_cons, getPlayer_cons]
    by_cases h : k = n
    · subst h
      rw [if_pos rfl, if_pos rfl]
      rfl
    · rw [if_neg h, if_neg h]
      exact getPlayer_mapKeyVals g n rest

theorem getPlayer_eq_of_mem_nodup :
    ∀ ps : Players, (ps.map Prod.fst).Nodup →
      ∀ {n : String} {st : PlayerStat}, (n, st) ∈ ps →
        getPlayer ps n = some st
  | [], _, _, _, h => absurd h (List.not_mem_nil _)
  | (k, v) :: rest, hnd, n, st, h => by
    rw [List.map_cons, List.nodup_cons] at hnd
    rw [getPlayer_cons]
    rcases List.mem_cons.mp h with heq | hmem
    · injection heq with h1 h2
      subst h1
      subst h2
      rw [if_pos rfl]
    · have hkn : k ≠ n := by
        intro he
        apply hnd.1
        rw [he]
        exact List.mem_map.mpr ⟨(n, st), hmem, rfl⟩
      rw [if_neg hkn]
      exact getPlayer_eq_of_mem_nodup rest hnd.2 hmem

theorem getPlayer_resetPositions (ps : Players) (n : String) :
    getPlayer (resetPositions ps) n = (getPlayer ps n).map
      (fun v => { v with final_position := (none : Option Nat) }) :=
  getPlayer_mapVals ps (fun v => { v with final_position := none }) n

theorem mem_of_getPlayer_eq :
    ∀ {ps : Players} {n : String} {st : PlayerStat},
      getPlayer ps n = some st → (n, st) ∈ ps
  | [], _, _, h => by cases h
  | (k, v) :: rest, n, st, h => by
    rw [getPlayer_cons] at h
    by_cases hk : k = n
    · rw [if_pos hk] at h
      injection h with h2
      subst hk
      subst h2
      exact List.mem_cons_self _ _
    · rw [if_neg hk] at h
      exact List.mem_cons_of_mem _ (mem_of_getPlayer_eq h)

/-- **C7 (amended).** Final-position resolution consults only the last
hand record; provided that hand's showdown shows at least one player
other than the collector (and the parties are registered, names unique),
the pot collector gets position 1, the first other shown player gets
position 2, and the still-unranked player with the single highest
`max_chips` gets position 3 while every other player remains unranked.
(The original claim's unconditional "pot collector is assigned
position 1" is refuted by `C7_counterexample`: with no shown player the
code assigns the collector position 3 through the chip fallback.) -/
theorem C7_final_positions (players : Players) (hands : List Hand)
    (h : Hand) (w f u : String) (amt : Nat) (wSt fSt uSt : PlayerStat)
    (hnd : (players.map Prod.fst).Nodup)
    (hlast : hands.getLast? = some h)
    (hcoll : h.collections.head? = some (w, amt))
    (hreg : ∀ x ∈ h.showdownReveals.map (fun e => e.player),
      (getPlayer players x).isSome)
    (hws : getPlayer players w = some wSt)
    (hf : (h.showdownReveals.map (fun e => e.player)).find?
        (fun x => decide (x ≠ w)) = some f)
    (hfs : getPlayer players f = some fSt)
    (hus : getPlayer players u = some uSt)
    (huw : u ≠ w) (huf : u ≠ f)
    (hmax : ∀ kv ∈ players, kv.1 ≠ w → kv.1 ≠ f → kv.1 ≠ u →
      kv.2.max_chips < uSt.max_chips) :
    (∀ hands2 : List Hand, hands2.getLast? = hands.getLast? →
      determineFinalPositions players hands2 =
        determineFinalPositions players hands) ∧
    (getPlayer (determineFinalPositions players hands) w).map
      (fun st => st.final_position) = some (some 1) ∧
    (getPlayer (determineFinalPositions players hands) f).map
      (fun st => st.final_position) = some (some 2) ∧
    (getPlayer (determineFinalPositions players hands) u).map
      (fun st => st.final_position) = some (some 3) ∧
    (∀ n, n ≠ w → n ≠ f → n ≠ u →
      (getPlayer (determineFinalPositions players hands) n).map
        (fun st => st.final_position) =
        (getPlayer players n).map (fun _ => (none : Option Nat))) := by
  have hfw : f ≠ w := by simpa using List.find?_some hf
  have hfmem : f ∈ h.showdownReveals.map (fun e => e.player) :=
    List.mem_of_find?_eq_some hf
  have hfinpos : 0 < (h.showdownReveals.map (fun e => e.player)).length :=
    List.length_pos.mpr (List.ne_nil_of_mem hfmem)
  have hD : determineFinalPositions players hands =
      players.map (fun kv => (kv.1,
        { kv.2 with final_position :=
            if kv.1 = u then some 3 else if kv.1 = f then some 2
            else if kv.1 = w then some 1 else (none : Option Nat) })) := by
    have hstep1 : determineFinalPositions players hands =
        assignThird (assignTopTwo (resetPositions players) h) := by
      unfold determineFinalPositions
      rw [hlast]
    have hP0w : (getPlayer (resetPositions players) w).isSome = true := by
      rw [getPlayer_resetPositions, hws]
      rfl
    have hpointwise : ∀ x ∈ h.showdownReveals.map (fun e => e.player),
        (fun x => decide (x ≠ w ∧ (getPlayer (updatePlayer
          (resetPositions players) w
          (fun st => { st with final_position := some 1 })) x).isSome)) x =
        (fun x => decide (x ≠ w)) x := by
      intro x hx
      have hxs : (getPlayer (updatePlayer (resetPositions players) w
          (fun st => { st with final_position := some 1 })) x).isSome
          = true := by
        rw [getPlayer_isSome_updatePlayer, getPlayer_resetPositions]
        have := hreg x hx
        cases hgp : getPlayer players x
        · rw [hgp] at this; cases this
        · rfl
      simp [hxs]
    have htop : assignTopTwo (resetPositions players) h =
        updatePlayer (updatePlayer (resetPositions players) w
          (fun st => { st with final_position := some 1 })) f
          (fun st => { st with final_position := some 2 }) := by
      unfold assignTopTwo
      simp only [hcoll, hfinpos, hP0w, eq_self_iff_true, if_true, ite_true]
      rw [assignSecond_eq, find?_congr _ _ _ hpointwise, hf]
    have hP2 : updatePlayer (updatePlayer (resetPositions players) w
        (fun st => { st with final_position := some 1 })) f
        (fun st => { st with final_position := some 2 }) =
        players.map (fun kv => (kv.1,
          { kv.2 with final_position :=
              if kv.1 = f then some 2 else if kv.1 = w then some 1
              else (none : Option Nat) })) := by
      unfold resetPositions updatePlayer
      rw [List.map_map, List.map_map]
      apply List.map_congr_left
      intro kv _
      obtain ⟨n, st⟩ := kv
      by_cases h1 : n = f
      · have h2 : ¬ n = w := fun hh => hfw (h1.symm.trans hh)
        simp [Function.comp, h1, h2, hfw]
      · by_cases h2 : n = w
        · have h3 : ¬ w = f := fun hh => hfw hh.symm
          simp [Function.comp, h1, h2, h3]
        · simp [Function.comp, h1, h2]
    have hfilter : (players.map (fun kv => (kv.1,
        { kv.2 with final_position :=
            if kv.1 = f then some 2 else if kv.1 = w then some 1
            else (none : Option Nat) }))).filter
          (fun kv => kv.2.final_position = none) =
        (players.filter (fun kv =>
          decide (kv.1 ≠ f) && decide (kv.1 ≠ w))).map (fun kv => (kv.1,
            { kv.2 with final_position := (none : Option Nat) })) := by
      rw [List.filter_map]
      have hpt : ∀ kv ∈ players,
          ((fun kv : String × PlayerStat =>
            decide (kv.2.final_position = none)) ∘ (fun kv => (kv.1,
              { kv.2 with final_position :=
                  if kv.1 = f then some 2 else if kv.1 = w then some 1
                  else (none : Option Nat) }))) kv =
            (decide (kv.1 ≠ f) && decide (kv.1 ≠ w)) := by
        intro kv _
        by_cases h1 : kv.1 = f
        · simp [Function.comp, h1]
        · by_cases h2 : kv.1 = w
          · have h3 : ¬ w = f := fun hh => hfw hh.symm
            simp [Function.comp, h1, h2, h3]
          · simp [Function.comp, h1, h2]
      rw [List.filter_congr hpt]
      apply List.map_congr_left
      intro kv hkv
      have hc := List.of_mem_filter hkv
      simp only [Bool.and_eq_true, decide_eq_true_eq] at hc
      simp [hc.1, hc.2]
    have hhead : (jsSortDesc (fun kv => (kv.2.max_chips : Rat))
        ((players.filter (fun kv =>
          decide (kv.1 ≠ f) && decide (kv.1 ≠ w))).map (fun kv => (kv.1,
            { kv.2 with final_position := (none : Option Nat) })))).head? =
        some (u, { uSt with final_position := (none : Option Nat) }) := by
      apply head_jsSortDesc_of_max
      · exact List.mem_map.mpr ⟨(u, uSt), List.mem_filter.mpr
          ⟨mem_of_getPlayer_eq hus, by simp [huf, huw]⟩, rfl⟩
      · intro x hx hxm
        obtain ⟨kv, hkv, rfl⟩ := List.mem_map.mp hx
        obtain ⟨n, st⟩ := kv
        have hkvp : (n, st) ∈ players := List.mem_of_mem_filter hkv
        have hc := List.of_mem_filter hkv
        simp only [Bool.and_eq_true, decide_eq_true_eq] at hc
        by_cases hku : n = u
        · exfalso
          apply hxm
          subst hku
          have hgq : getPlayer players n = some st :=
            getPlayer_eq_of_mem_nodup players hnd hkvp
          rw [hus] at hgq
          injection hgq with h2
          rw [h2]
        · have := hmax (n, st) hkvp hc.2 hc.1 hku
          simpa using this
    rw [hstep1, htop, hP2]
    unfold assignThird
    rw [hfilter]
    simp only [hhead]
    unfold updatePlayer
    rw [List.map_map]
    apply List.map_congr_left
    intro kv _
    obtain ⟨n, st⟩ := kv
    by_cases h1 : n = u
    · have h2 : ¬ n = f := fun hh => huf (h1.symm.trans hh)
      have h3 : ¬ n = w := fun hh => huw (h1.symm.trans hh)
      simp [Function.comp, h1, h2, h3]
    · by_cases h2 : n = f
      · have h3 : ¬ f = u := fun hh => huf hh.symm
        simp [Function.comp, h1, h2, h3]
      · by_cases h3 : n = w
        · have h4 : ¬ w = u := fun hh => huw hh.symm
          have h5 : ¬ w = f := fun hh => hfw hh.symm
          simp [Function.comp, h1, h2, h3, h4, h5]
        · simp [Function.comp, h1, h2, h3]
  refine ⟨?_, ?_, ?_, ?_, ?_⟩
  · intro hands2 heq
    unfold determineFinalPositions
    rw [heq]
  · rw [hD, getPlayer_mapKeyVals
      (fun n v => { v with final_position :=
        (if n = u then some 3 else if n = f then some 2
          else if n = w then some 1 else (none : Option Nat)) }), hws]
    have h1 : ¬ w = u := fun hh => huw hh.symm
    have h2 : ¬ w = f := fun hh => hfw hh.symm
    simp [h1, h2]
  · rw [hD, getPlayer_mapKeyVals
      (fun n v => { v with final_position :=
        (if n = u then some 3 else if n = f then some 2
          else if n = w then some 1 else (none : Option Nat)) }), hfs]
    have h1 : ¬ f = u := fun hh => huf hh.symm
    simp [h1]
  · rw [hD, getPlayer_mapKeyVals
      (fun n v => { v with final_position :=
        (if n = u then some 3 else if n = f then some 2
          else if n = w then some 1 else (none : Option Nat)) }), hus]
    simp
  · intro n hnw hnf hnu
    rw [hD, getPlayer_mapKeyVals
      (fun n v => { v with final_position :=
        (if n = u then some 3 else if n = f then some 2
          else if n = w then some 1 else (none : Option Nat)) })]
    cases getPlayer players n <;> simp [hnw, hnf, hnu]

/-- Final hand for the C7 witness: A collects, A and B show. -/
def c7WitHand : Hand :=
  { seats := [("A", 100), ("B", 50), ("C", 80)]
    hasShowdown := true
    showdownReveals := [⟨"A", "Ah Ad", "a pair of Aces", none⟩,
                        ⟨"B", "Kh Kd", "a pair of Kings", none⟩]
    actions := []
    voluntaryActors := []
    collections := [("A", 60)]
    splitLanguage := false }

/-- Player map for the C7 witness. -/
def c7WitPlayers : Players :=
  [("A", { max_chips := 100 }), ("B", { max_chips := 50 }),
   ("C", { max_chips := 80 })]

/-- Closed witness for `C7_final_positions`: collector A is 1st, first
other shown player B is 2nd, the chip-leading remainder C is 3rd. -/
theorem C7_final_positions_witness :
    ([c7WitHand].getLast? = some c7WitHand ∧
      c7WitHand.collections.head? = some ("A", 60)) ∧
    (getPlayer (determineFinalPositions c7WitPlayers [c7WitHand]) "A").map
      (fun st => st.final_position) = some (some 1) ∧
    (getPlayer (determineFinalPositions c7WitPlayers [c7WitHand]) "B").map
      (fun st => st.final_position) = some (some 2) ∧
    (getPlayer (determineFinalPositions c7WitPlayers [c7WitHand]) "C").map
      (fun st => st.final_position) = some (some 3) := by
  refine ⟨⟨rfl, rfl⟩, ?_⟩
  have h := C7_final_positions c7WitPlayers [c7WitHand] c7WitHand
    "A" "B" "C" 60 { max_chips := 100 } { max_chips := 50 }
    { max_chips := 80 } (by decide) (by decide) (by decide) (by decide)
    (by decide) (by decide) (by decide) (by decide) (by decide) (by decide)
    (by decide)
  exact ⟨h.2.1, h.2.2.1, h.2.2.2.1⟩

/-- Counterexample to C7 as literally stated: the last hand has a pot
collector but shows nobody at showdown; the collector is then assigned
position 3 through the chip fallback, not position 1. -/
theorem C7_counterexample :
    (Hand.mk [("A", 100)] false [] [] [] [("A", 60)]
        false).collections.head? = some ("A", 60) ∧
    (getPlayer (determineFinalPositions [("A", { max_chips := 100 })]
        [Hand.mk [("A", 100)] false [] [] [] [("A", 60)] false]) "A").map
      (fun st => st.final_position) = some (some 3) ∧
    (getPlayer (determineFinalPositions [("A", { max_chips := 100 })]
        [Hand.mk [("A", 100)] false [] [] [] [("A", 60)] false]) "A").map
      (fun st => st.final_position) ≠ some (some 1) := by
  refine ⟨rfl, ?_, ?_⟩ <;> decide

/-! ## C9 — voluntary-play accounting -/

/-- The voluntary-play/hands-played projection of a stat record. -/
def volHp (st : PlayerStat) : Nat × Nat :=
  (st.hands_voluntarily_played, st.hands_played)

theorem count_dedupAux (n : String) :
    ∀ (l seen : List String), (dedupAux l seen).count n =
      if n ∈ seen then 0 else if n ∈ l then 1 else 0
  | [], seen => by simp [dedupAux]
  | x :: xs, seen => by
    unfold dedupAux
    by_cases hxs : x ∈ seen
    · rw [if_pos (by simpa [List.elem_iff] using hxs)]
      rw [count_dedupAux n xs seen]
      by_cases hns : n ∈ seen
      · simp [hns]
      · have hnx : n ≠ x := fun hh => hns (hh ▸ hxs)
        simp [hns, hnx, List.mem_cons]
    · rw [if_neg (by simpa [List.elem_iff] using hxs)]
      rw [List.count_cons, count_dedupAux n xs (x :: seen)]
      by_cases hnx : n = x
      · subst hnx
        simp [hxs, List.mem_cons]
      · have hxn : ¬ x = n := fun hh => hnx hh.symm
        by_cases hns : n ∈ seen
        · simp [hns, hnx, hxn, List.mem_cons]
        · simp [hns, hnx, hxn, List.mem_cons]

theorem count_dedupFirst (n : String) (l : List String) :
    (dedupFirst l).count n = if n ∈ l then 1 else 0 := by
  rw [dedupFirst, count_dedupAux]
  simp

theorem getPlayer_updatePlayer_volHp (ps : Players) (m n : String)
    (f : PlayerStat → PlayerStat) (hf : ∀ st, volHp (f st) = volHp st) :
    (getPlayer (updatePlayer ps m f) n).map volHp =
      (getPlayer ps n).map volHp := by
  by_cases h : n = m
  · subst h
    rw [getPlayer_updatePlayer_self]
    cases getPlayer ps n <;> simp [hf]
  · rw [getPlayer_updatePlayer_other ps h]

theorem foldl_volHp {β : Type} (step : Players → β → Players)
    (hstep : ∀ ps b n, (getPlayer (step ps b) n).map volHp =
      (getPlayer ps n).map volHp) :
    ∀ (l : List β) (ps : Players) (n : String),
      (getPlayer (l.foldl step ps) n).map volHp = (getPlayer ps n).map volHp
  | [], _, _ => rfl
  | b :: rest, ps, n => by
    rw [List.foldl_cons, foldl_volHp step hstep rest (step ps b) n, hstep]

theorem countAction_volHp (ps : Players) (m : String × ActionType)
    (n : String) : (getPlayer (countAction ps m) n).map volHp =
      (getPlayer ps n).map volHp :=
  getPlayer_updatePlayer_volHp ps m.1 n _ (fun st => by cases m.2 <;> rfl)

theorem countShowdownResult_volHp (ps : Players) (m : String × Bool)
    (n : String) : (getPlayer (countShowdownResult ps m) n).map volHp =
      (getPlayer ps n).map volHp :=
  getPlayer_updatePlayer_volHp ps m.1 n _
    (fun st => by cases m.2 <;> rfl)

theorem addWinnings_volHp (ps : Players) (m : String × Nat) (n : String) :
    (getPlayer (addWinnings ps m) n).map volHp =
      (getPlayer ps n).map volHp :=
  getPlayer_updatePlayer_volHp ps m.1 n _ (fun st => rfl)

theorem pushBadBeat_volHp (w : String) (lh wh : PlayerHand) (ps : Players)
    (n : String) : (getPlayer (pushBadBeat w lh wh ps) n).map volHp =
      (getPlayer ps n).map volHp := by
  unfold pushBadBeat
  rw [getPlayer_updatePlayer_volHp _ w n
      (fun st => { st with suckouts :=
        st.suckouts ++ [mkSuckoutInfo w lh wh] }) (fun st => rfl),
    getPlayer_updatePlayer_volHp ps lh.player n
      (fun st => { st with bad_beats :=
        st.bad_beats ++ [mkBadBeatInfo w lh wh] }) (fun st => rfl)]

theorem foldBB_volHp_all (w : String) (wh : PlayerHand)
    (l : List PlayerHand) (ps : Players) (n : String) :
    (getPlayer (l.foldl (fun ps lh =>
        if isGenuineBadBeat lh wh then pushBadBeat w lh wh ps else ps)
      ps) n).map volHp = (getPlayer ps n).map volHp :=
  foldl_volHp
    (fun ps lh =>
      if isGenuineBadBeat lh wh then pushBadBeat w lh wh ps else ps)
    (fun ps lh m => by
      show (getPlayer (if isGenuineBadBeat lh wh then pushBadBeat w lh wh ps
        else ps) m).map volHp = (getPlayer ps m).map volHp
      by_cases hg : isGenuineBadBeat lh wh
      · rw [if_pos hg, pushBadBeat_volHp]
      · rw [if_neg hg]) l ps n

theorem analyze_volHp (hasShowdown : Bool) (reveals : List ShowEntry)
    (winners : List (String × Nat)) (split : Bool) (ps : Players)
    (n : String) :
    (getPlayer (analyzeShowdownForBadBeats hasShowdown reveals winners split
      ps) n).map volHp = (getPlayer ps n).map volHp := by
  unfold analyzeShowdownForBadBeats
  split
  · rfl
  · split
    · rfl
    · split
      · rfl
      · split
        · split
          · rfl
          · split
            · rfl
            · apply foldBB_volHp_all
        · rfl

theorem volFold_volHp (n : String) :
    ∀ (l : List String) (ps : Players),
      (getPlayer (l.foldl markVoluntary ps) n).map volHp =
        (getPlayer ps n).map (fun st =>
          (st.hands_voluntarily_played + l.count n, st.hands_played))
  | [], ps => by
    rw [List.foldl_nil]
    cases getPlayer ps n <;> rfl
  | x :: xs, ps => by
    rw [List.foldl_cons, volFold_volHp n xs (markVoluntary ps x)]
    unfold markVoluntary
    by_cases hx : n = x
    · subst hx
      rw [getPlayer_updatePlayer_self]
      cases getPlayer ps n <;> simp [volHp, List.count_cons] <;> omega
    · rw [getPlayer_updatePlayer_other ps hx]
      cases getPlayer ps n <;> simp [volHp, List.count_cons, hx]

theorem getPlayer_append_single (p : String) (v : PlayerStat) (n : String) :
    ∀ ps : Players, getPlayer (ps ++ [(p, v)]) n =
      match getPlayer ps n with
      | some st => some st
      | none => if p = n then some v else none
  | [] => by simp [getPlayer]
  | (k, x) :: rest => by
    rw [List.cons_append, getPlayer_cons, getPlayer_cons]
    by_cases hk : k = n
    · rw [if_pos hk, if_pos hk]
    · rw [if_neg hk, if_neg hk]
      exact getPlayer_append_single p v n rest

theorem registerSeat_volHp (ps : Players) (pc : String × Nat) (n : String) :
    (getPlayer (registerSeat ps pc) n).map volHp =
      if pc.1 = n then
        some (match getPlayer ps n with
          | some st =>
            (st.hands_voluntarily_played, st.hands_played + 1)
          | none => (0, 1))
      else (getPlayer ps n).map volHp := by
  unfold registerSeat
  by_cases hp : (getPlayer ps pc.1).isSome
  · rw [if_pos hp]
    by_cases hn : pc.1 = n
    · rw [if_pos hn]
      subst hn
      rw [getPlayer_updatePlayer_self]
      cases hg : getPlayer ps pc.1
      · rw [hg] at hp; cases hp
      · rfl
    · rw [if_neg hn]
      exact getPlayer_updatePlayer_other ps (fun hh => hn hh.symm) _ ▸ rfl
  · rw [if_neg hp]
    by_cases hn : pc.1 = n
    · rw [if_pos hn]
      subst hn
      rw [getPlayer_updatePlayer_self, getPlayer_append_single]
      cases hg : getPlayer ps pc.1
      · simp [volHp]
      · rw [hg] at hp; simp at hp
    · rw [if_neg hn,
        getPlayer_updatePlayer_other _ (fun hh => hn hh.symm),
        getPlayer_append_single]
      cases getPlayer ps n
      · rw [if_neg hn]
      · rfl

theorem regFold_volHp (n : String) :
    ∀ (seats : List (String × Nat)) (ps : Players),
      (getPlayer (seats.foldl registerSeat ps) n).map volHp =
        match getPlayer ps n with
        | some st => some (st.hands_voluntarily_played,
            st.hands_played + (seats.map Prod.fst).count n)
        | none =>
          if (seats.map Prod.fst).count n = 0 then none
          else some (0, (seats.map Prod.fst).count n)
  | [], ps => by
    rw [List.foldl_nil]
    cases hg : getPlayer ps n <;> simp [hg, volHp]
  | pc :: rest, ps => by
    rw [List.foldl_cons, regFold_volHp n rest (registerSeat ps pc)]
    have hr := registerSeat_volHp ps pc n
    rw [List.map_cons, List.count_cons]
    by_cases hn : pc.1 = n
    · rw [if_pos hn] at hr
      have hcnt : (if pc.1 == n then 1 else 0) = 1 := by simp [hn]
      rw [hcnt]
      cases hg : getPlayer ps n with
      | none =>
        rw [hg] at hr
        cases hg2 : getPlayer (registerSeat ps pc) n
        · rw [hg2] at hr; cases hr
        · rw [hg2] at hr
          injection hr with hr2
          simp only [volHp] at hr2
          injection hr2 with ha hb
          simp [ha, hb]
          omega
      | some st =>
        rw [hg] at hr
        cases hg2 : getPlayer (registerSeat ps pc) n
        · rw [hg2] at hr; cases hr
        · rw [hg2] at hr
          injection hr with hr2
          simp only [volHp] at hr2
          injection hr2 with ha hb
          simp [ha, hb]
          omega
    · rw [if_neg hn] at hr
      have hcnt : (if pc.1 == n then 1 else 0) = 0 := by simp [hn]
      rw [hcnt]
      cases hg : getPlayer ps n with
      | none =>
        rw [hg] at hr
        cases hg2 : getPlayer (registerSeat ps pc) n
        · simp
        · rw [hg2] at hr; cases hr
      | some st =>
        rw [hg] at hr
        cases hg2 : getPlayer (registerSeat ps pc) n
        · rw [hg2] at hr; cases hr
        · rw [hg2] at hr
          injection hr with hr2
          simp only [volHp] at hr2
          injection hr2 with ha hb
          simp [ha, hb]

theorem map_volHp_shift (o : Option PlayerStat) (k : Nat)
    (r : Option (Nat × Nat)) (h : o.map volHp = r) :
    o.map (fun st => (st.hands_voluntarily_played + k, st.hands_played)) =
      r.map (fun p => (p.1 + k, p.2)) := by
  subst h
  cases o <;> rfl

theorem parseHand_volHp (hand : Hand) (ps : Players) (n : String) :
    (getPlayer (parseHand hand ps) n).map volHp =
      match getPlayer ps n with
      | some st => some
          (st.hands_voluntarily_played +
            (if n ∈ hand.voluntaryActors then 1 else 0),
           st.hands_played + (hand.seats.map Prod.fst).count n)
      | none =>
        if (hand.seats.map Prod.fst).count n = 0 then none
        else some ((if n ∈ hand.voluntaryActors then 1 else 0),
          (hand.seats.map Prod.fst).count n) := by
  have hE : ∀ ps' : Players,
      (getPlayer (if hand.hasShowdown then
        hand.showdownResults.foldl countShowdownResult ps' else ps')
          n).map volHp = (getPlayer ps' n).map volHp := fun ps' => by
    by_cases hs : hand.hasShowdown
    · rw [if_pos hs,
        foldl_volHp countShowdownResult countShowdownResult_volHp]
    · rw [if_neg hs]
  have hB : ∀ ps' : Players,
      (getPlayer (if hand.hasShowdown then
        analyzeShowdownForBadBeats true hand.showdownReveals
          hand.collections hand.splitLanguage ps' else ps')
          n).map volHp = (getPlayer ps' n).map volHp := fun ps' => by
    by_cases hs : hand.hasShowdown
    · rw [if_pos hs, analyze_volHp]
    · rw [if_neg hs]
  have hC : (getPlayer (hand.actions.foldl countAction
      (if hand.hasShowdown then
        analyzeShowdownForBadBeats true hand.showdownReveals
          hand.collections hand.splitLanguage
          (hand.seats.foldl registerSeat ps)
      else hand.seats.foldl registerSeat ps)) n).map volHp =
      (match getPlayer ps n with
       | some st => some (st.hands_voluntarily_played,
           st.hands_played + (hand.seats.map Prod.fst).count n)
       | none =>
         if (hand.seats.map Prod.fst).count n = 0 then none
         else some (0, (hand.seats.map Prod.fst).count n)) := by
    rw [foldl_volHp countAction countAction_volHp, hB, regFold_volHp]
  simp only [parseHand]
  rw [foldl_volHp addWinnings addWinnings_volHp, hE, volFold_volHp n,
    map_volHp_shift _ _ _ hC, count_dedupFirst]
  cases hg : getPlayer ps n
  · by_cases hc : (hand.seats.map Prod.fst).count n = 0
    · simp [hc]
    · simp [hc]
  · simp

theorem resetPositions_volHp (ps : Players) (n : String) :
    (getPlayer (resetPositions ps) n).map volHp =
      (getPlayer ps n).map volHp := by
  rw [show getPlayer (resetPositions ps) n = (getPlayer ps n).map
      (fun st => { st with final_position := (none : Option Nat) }) from
    getPlayer_mapVals ps
      (fun st => { st with final_position := (none : Option Nat) }) n]
  cases getPlayer ps n <;> rfl

theorem assignSecond_volHp (w n : String) :
    ∀ (fins : List String) (ps : Players),
      (getPlayer (assignSecond ps w fins) n).map volHp =
        (getPlayer ps n).map volHp
  | [], _ => rfl
  | f :: rest, ps => by
    unfold assignSecond
    split
    · exact getPlayer_updatePlayer_volHp ps f n _ (fun st => rfl)
    · exact assignSecond_volHp w n rest ps

theorem assignTopTwo_volHp (ps : Players) (fh : Hand) (n : String) :
    (getPlayer (assignTopTwo ps fh) n).map volHp =
      (getPlayer ps n).map volHp := by
  unfold assignTopTwo
  split
  · rfl
  · split
    · rw [assignSecond_volHp]
      split
      · exact getPlayer_updatePlayer_volHp _ _ _ _ (fun st => rfl)
      · rfl
    · rfl

theorem assignThird_volHp (ps : Players) (n : String) :
    (getPlayer (assignThird ps) n).map volHp =
      (getPlayer ps n).map volHp := by
  unfold assignThird
  split
  · exact getPlayer_updatePlayer_volHp _ _ _ _ (fun st => rfl)
  · rfl

theorem determine_volHp (ps : Players) (hands : List Hand) (n : String) :
    (getPlayer (determineFinalPositions ps hands) n).map volHp =
      (getPlayer ps n).map volHp := by
  unfold determineFinalPositions
  rw [assignThird_volHp]
  cases hL : hands.getLast?
  · rw [resetPositions_volHp]
  · rw [assignTopTwo_volHp, resetPositions_volHp]

theorem foldHands_vol_le (n : String) :
    ∀ (hs : List Hand) (acc : Players),
      (∀ h ∈ hs, ∀ p ∈ h.voluntaryActors, p ∈ h.seats.map Prod.fst) →
      (∀ st, getPlayer acc n = some st →
        st.hands_voluntarily_played ≤ st.hands_played) →
      ∀ st,
        getPlayer (hs.foldl (fun ps h => parseHand h ps) acc) n = some st →
        st.hands_voluntarily_played ≤ st.hands_played
  | [], _ => fun _ hacc => hacc
  | h :: rest, acc => fun hw hacc => by
    rw [List.foldl_cons]
    apply foldHands_vol_le n rest (parseHand h acc)
    · intro h' hh'
      exact hw h' (List.mem_cons_of_mem _ hh')
    · intro st hst
      have hp := parseHand_volHp h acc n
      rw [hst, optMap_some] at hp
      cases hg : getPlayer acc n with
      | some st0 =>
        simp only [hg] at hp
        injection hp with hp2
        simp only [volHp] at hp2
        injection hp2 with ha hb
        have hbase := hacc st0 hg
        by_cases hv : n ∈ h.voluntaryActors
        · have hseat : n ∈ h.seats.map Prod.fst :=
            hw h (List.mem_cons_self h rest) n hv
          have hcnt : 0 < (h.seats.map Prod.fst).count n :=
            List.count_pos_iff.mpr hseat
          rw [if_pos hv] at ha
          omega
        · rw [if_neg hv] at ha
          omega
      | none =>
        simp only [hg] at hp
        by_cases hc : (h.seats.map Prod.fst).count n = 0
        · rw [if_pos hc] at hp
          cases hp
        · rw [if_neg hc] at hp
          injection hp with hp2
          simp only [volHp] at hp2
          injection hp2 with ha hb
          by_cases hv : n ∈ h.voluntaryActors
          · rw [if_pos hv] at ha
            omega
          · rw [if_neg hv] at ha
            omega

/-- A hand whose voluntary actors are all seated, for the C9 witness. -/
def c9WitHand : Hand :=
  { seats := [("A", 100)]
    hasShowdown := false
    showdownReveals := []
    actions := [("A", .raisesA)]
    voluntaryActors := ["A", "A"]
    collections := [("A", 50)]
    splitLanguage := false }

/-- A one-hand transcript built from `c9WitHand`. -/
def c9WitT : Transcript :=
  { hands := [c9WitHand], tournamentId := none, date := none }

/-- The pre-existing stat record fed to `parseHand` in the C9 witness. -/
def c9WitSt0 : PlayerStat := { max_chips := 7 }

/-- The stat record `parseHand c9WitHand` produces for player `A`. -/
def c9WitSt1 : PlayerStat :=
  { hands_played := 1, raises := 1, aggressive_actions := 1,
    hands_voluntarily_played := 1, total_won := 50, max_chips := 100 }

/-- The stat record `extractFromTxt c9WitT` produces for player `A`. -/
def c9WitStat : PlayerStat :=
  { hands_played := 1, raises := 1, aggressive_actions := 1,
    hands_voluntarily_played := 1, total_won := 50, max_chips := 100,
    final_position := some 3 }

/-- **C9.** Per hand, the `Set`-deduplicated voluntary-play pass
increments a player's `hands_voluntarily_played` by at most one, however
many raise/call/bet actions the hand holds for that player; and whenever
every hand's voluntary actors are also seated in that same hand — which
is the only way the seat pass can register the hand for them —
`hands_voluntarily_played ≤ hands_played` holds for every player of the
extraction result. (On malformed input naming a voluntary actor without
a seat line the inequality fails, see the counterexample.) -/
theorem C9_voluntary_play :
    (∀ (hand : Hand) (ps : Players) (n : String) (st st' : PlayerStat),
        getPlayer ps n = some st →
        getPlayer (parseHand hand ps) n = some st' →
        st'.hands_voluntarily_played ≤ st.hands_voluntarily_played + 1) ∧
    (∀ t : Transcript,
        (∀ h ∈ t.hands, ∀ p ∈ h.voluntaryActors,
          p ∈ h.seats.map Prod.fst) →
        ∀ n st, getPlayer (extractFromTxt t).players n = some st →
          st.hands_voluntarily_played ≤ st.hands_played) := by
  constructor
  · intro hand ps n st st' hst hst'
    have hp := parseHand_volHp hand ps n
    rw [hst', optMap_some] at hp
    simp only [hst] at hp
    injection hp with hp2
    simp only [volHp] at hp2
    injection hp2 with ha hb
    by_cases hv : n ∈ hand.voluntaryActors
    · rw [if_pos hv] at ha
      omega
    · rw [if_neg hv] at ha
      omega
  · intro t hw n st hst
    have hd := determine_volHp
      (t.hands.foldl (fun ps h => parseHand h ps) []) t.hands n
    have hst2 : getPlayer (determineFinalPositions
        (t.hands.foldl (fun ps h => parseHand h ps) []) t.hands) n =
        some st := hst
    rw [hst2, optMap_some] at hd
    cases hg : getPlayer (t.hands.foldl (fun ps h => parseHand h ps) []) n
      with
    | none =>
      rw [hg] at hd
      cases hd
    | some st0 =>
      rw [hg, optMap_some] at hd
      injection hd with hd2
      have h0 := foldHands_vol_le n t.hands [] hw
        (fun st1 h1 => Option.noConfusion h1) st0 hg
      simp only [volHp] at hd2
      injection hd2 with h1 h2
      omega

theorem C9_voluntary_play_witness :
    c9WitSt1.hands_voluntarily_played ≤
      c9WitSt0.hands_voluntarily_played + 1 ∧
    c9WitStat.hands_voluntarily_played ≤ c9WitStat.hands_played :=
  ⟨C9_voluntary_play.1 c9WitHand [("A", c9WitSt0)] "A" c9WitSt0 c9WitSt1
      (by decide) (by decide),
   C9_voluntary_play.2 c9WitT (by decide) "A" c9WitStat (by decide)⟩

/-- First hand of the C9 counterexample: `A` seated and voluntary. -/
def c9BadHand1 : Hand :=
  { seats := [("A", 100)]
    hasShowdown := false
    showdownReveals := []
    actions := []
    voluntaryActors := ["A"]
    collections := []
    splitLanguage := false }

/-- Second hand of the C9 counterexample: `A` takes a voluntary action
but has no seat line, so `hands_played` is not incremented. -/
def c9BadHand2 : Hand :=
  { seats := []
    hasShowdown := false
    showdownReveals := []
    actions := []
    voluntaryActors := ["A"]
    collections := []
    splitLanguage := false }

/-- The malformed two-hand transcript of the C9 counterexample. -/
def c9BadT : Transcript :=
  { hands := [c9BadHand1, c9BadHand2], tournamentId := none, date := none }

/-- The stat record the C9 counterexample produces: two voluntary plays
against a single seat registration. -/
def c9BadStat : PlayerStat :=
  { hands_played := 1, hands_voluntarily_played := 2, max_chips := 100,
    final_position := some 3 }

theorem C9_counterexample :
    getPlayer (extractFromTxt c9BadT).players "A" = some c9BadStat ∧
    ¬ c9BadStat.hands_voluntarily_played ≤ c9BadStat.hands_played := by
  constructor <;> decide

/-! ## C10 — strictly positive winning metric -/

theorem pickFold_const (score : PlayerStat → Rat) :
    ∀ (cands : List (String × PlayerStat)) (b : Option String) (r : Rat),
      (∀ kv ∈ cands, score kv.2 ≤ r) →
      cands.foldl (fun acc kv =>
        let s := score kv.2
        if acc.2 < s then (some kv.1, s) else acc) (b, r) = (b, r)
  | [], _, _ => fun _ => rfl
  | kv :: rest, b, r => fun hall => by
    show rest.foldl (fun acc kv =>
        let s := score kv.2
        if acc.2 < s then (some kv.1, s) else acc)
      (if r < score kv.2 then (some kv.1, score kv.2) else (b, r)) = (b, r)
    rw [if_neg (not_lt.mpr (hall kv (List.mem_cons_self kv rest)))]
    exact pickFold_const score rest b r
      (fun kv2 h2 => hall kv2 (List.mem_cons_of_mem kv h2))

theorem pickFold_some (score : PlayerStat → Rat) :
    ∀ (cands : List (String × PlayerStat)) (x : String) (r : Rat),
      ((cands.foldl (fun acc kv =>
        let s := score kv.2
        if acc.2 < s then (some kv.1, s) else acc) (some x, r)).1).isSome
  | [], _, _ => rfl
  | kv :: rest, x, r => by
    show ((rest.foldl (fun acc kv =>
        let s := score kv.2
        if acc.2 < s then (some kv.1, s) else acc)
      (if r < score kv.2 then (some kv.1, score kv.2)
       else (some x, r))).1).isSome
    by_cases hc : r < score kv.2
    · rw [if_pos hc]
      exact pickFold_some score rest kv.1 (score kv.2)
    · rw [if_neg hc]
      exact pickFold_some score rest x r

theorem pickFold_exceed (score : PlayerStat → Rat) :
    ∀ (cands : List (String × PlayerStat)) (b : Option String) (r : Rat),
      (∃ kv ∈ cands, r < score kv.2) →
      ((cands.foldl (fun acc kv =>
        let s := score kv.2
        if acc.2 < s then (some kv.1, s) else acc) (b, r)).1).isSome
  | [], _, _ => fun ⟨kv, h, _⟩ => absurd h (List.not_mem_nil kv)
  | kv :: rest, b, r => fun ⟨w, hw, hlt⟩ => by
    show ((rest.foldl (fun acc kv =>
        let s := score kv.2
        if acc.2 < s then (some kv.1, s) else acc)
      (if r < score kv.2 then (some kv.1, score kv.2)
       else (b, r))).1).isSome
    by_cases hc : r < score kv.2
    · rw [if_pos hc]
      exact pickFold_some score rest kv.1 (score kv.2)
    · rw [if_neg hc]
      rcases List.mem_cons.mp hw with he | hr2
      · exact absurd (he ▸ hlt) hc
      · exact pickFold_exceed score rest b r ⟨w, hr2, hlt⟩

theorem pickMaxBy_ne_none_iff (score : PlayerStat → Rat) (init : Rat)
    (cands : List (String × PlayerStat)) :
    pickMaxBy score init cands ≠ none ↔
      ∃ kv ∈ cands, init < score kv.2 := by
  constructor
  · intro hne
    by_contra hno
    push_neg at hno
    apply hne
    unfold pickMaxBy
    rw [pickFold_const score cands none init hno]
  · intro hex h
    have hs := pickFold_exceed score cands none init hex
    unfold pickMaxBy at h
    rw [h] at hs
    cases hs

theorem pickMinFold_const (score : PlayerStat → Rat) :
    ∀ (cands : List (String × PlayerStat)) (b : Option String) (r : Rat),
      (∀ kv ∈ cands, r ≤ score kv.2) →
      cands.foldl (fun acc kv =>
        let s := score kv.2
        if s < acc.2 then (some kv.1, s) else acc) (b, r) = (b, r)
  | [], _, _ => fun _ => rfl
  | kv :: rest, b, r => fun hall => by
    show rest.foldl (fun acc kv =>
        let s := score kv.2
        if s < acc.2 then (some kv.1, s) else acc)
      (if score kv.2 < r then (some kv.1, score kv.2) else (b, r)) = (b, r)
    rw [if_neg (not_lt.mpr (hall kv (List.mem_cons_self kv rest)))]
    exact pickMinFold_const score rest b r
      (fun kv2 h2 => hall kv2 (List.mem_cons_of_mem kv h2))

theorem pickMinFold_some (score : PlayerStat → Rat) :
    ∀ (cands : List (String × PlayerStat)) (x : String) (r : Rat),
      ((cands.foldl (fun acc kv =>
        let s := score kv.2
        if s < acc.2 then (some kv.1, s) else acc) (some x, r)).1).isSome
  | [], _, _ => rfl
  | kv :: rest, x, r => by
    show ((rest.foldl (fun acc kv =>
        let s := score kv.2
        if s < acc.2 then (some kv.1, s) else acc)
      (if score kv.2 < r then (some kv.1, score kv.2)
       else (some x, r))).1).isSome
    by_cases hc : score kv.2 < r
    · rw [if_pos hc]
      exact pickMinFold_some score rest kv.1 (score kv.2)
    · rw [if_neg hc]
      exact pickMinFold_some score rest x r

theorem pickMinFold_exceed (score : PlayerStat → Rat) :
    ∀ (cands : List (String × PlayerStat)) (b : Option String) (r : Rat),
      (∃ kv ∈ cands, score kv.2 < r) →
      ((cands.foldl (fun acc kv =>
        let s := score kv.2
        if s < acc.2 then (some kv.1, s) else acc) (b, r)).1).isSome
  | [], _, _ => fun ⟨kv, h, _⟩ => absurd h (List.not_mem_nil kv)
  | kv :: rest, b, r => fun ⟨w, hw, hlt⟩ => by
    show ((rest.foldl (fun acc kv =>
        let s := score kv.2
        if s < acc.2 then (some kv.1, s) else acc)
      (if score kv.2 < r then (some kv.1, score kv.2)
       else (b, r))).1).isSome
    by_cases hc : score kv.2 < r
    · rw [if_pos hc]
      exact pickMinFold_some score rest kv.1 (score kv.2)
    · rw [if_neg hc]
      rcases List.mem_cons.mp hw with he | hr2
      · exact absurd (he ▸ hlt) hc
      · exact pickMinFold_exceed score rest b r ⟨w, hr2, hlt⟩

theorem pickMinBy_ne_none_iff (score : PlayerStat → Rat) (init : Rat)
    (cands : List (String × PlayerStat)) :
    pickMinBy score init cands ≠ none ↔
      ∃ kv ∈ cands, score kv.2 < init := by
  constructor
  · intro hne
    by_contra hno
    push_neg at hno
    apply hne
    unfold pickMinBy
    rw [pickMinFold_const score cands none init hno]
  · intro hex h
    have hs := pickMinFold_exceed score cands none init hex
    unfold pickMinBy at h
    rw [h] at hs
    cases hs

theorem match_award_ne (st : AwardsState) (o : Option String)
    (g : String → String × AwardRecord) :
    (match o with
     | some x =>
       ({ awards := st.awards ++ [g x]
          awardedPlayers := st.awardedPlayers ++ [x] } : AwardsState)
     | none => st) ≠ st ↔ o ≠ none := by
  cases o with
  | none => simp
  | some x =>
    refine iff_of_true ?_ (by simp)
    intro heq
    have h2 := congrArg (fun s => s.awards.length) heq
    simp [List.length_append] at h2

theorem ratDivPos (a d : Nat) (hd : 0 < d) :
    0 < (a : Rat) / (d : Rat) ↔ 0 < a := by
  rw [div_pos_iff]
  constructor
  · rintro (⟨h1, _⟩ | ⟨_, h2⟩)
    · exact_mod_cast h1
    · exact absurd h2 (not_lt.mpr (by positivity))
  · intro h
    exact Or.inl ⟨by exact_mod_cast h, by exact_mod_cast hd⟩

theorem maxDenom_pos (n : Nat) : 0 < max (jsOrN n 1) 1 :=
  lt_of_lt_of_le Nat.zero_lt_one (le_max_right _ _)

theorem aggressive_ne_iff (players : Players) (st : AwardsState) :
    awardMostAggressive players st ≠ st ↔
      pickMaxBy (fun data =>
        (data.aggressive_actions : Rat) /
          ((max (jsOrN data.hands_played 1) 1 : Nat) : Rat)) 0
        (players.filter (fun kv =>
          decide (5 < kv.2.hands_played) &&
            !st.awardedPlayers.contains kv.1)) ≠ none :=
  match_award_ne st _ (fun x =>
    ("🔥 Most Aggressive",
      { winner := x
        description := "Fearless bets and raises kept everyone on edge"
        stat := "Never met a pot they didn't want to steal" }))

theorem calling_ne_iff (players : Players) (st : AwardsState) :
    awardCallingStation players st ≠ st ↔
      pickMaxBy (fun data =>
        (data.calls : Rat) /
          ((max (jsOrN data.hands_played 1) 1 : Nat) : Rat)) 0
        (players.filter (fun kv =>
          !st.awardedPlayers.contains kv.1 &&
            decide (5 < kv.2.hands_played))) ≠ none :=
  match_award_ne st _ (fun x =>
    ("📞 Calling Station",
      { winner := x
        description := "Never saw a bet they didn't want to call"
        stat := "The human slot machine" }))

theorem tightest_ne_iff (players : Players) (st : AwardsState) :
    awardTightestPlayer players st ≠ st ↔
      pickMinBy (fun data =>
        (data.hands_voluntarily_played : Rat) /
          ((max (jsOrN data.hands_played 1) 1 : Nat) : Rat)) 1
        (players.filter (fun kv =>
          !st.awardedPlayers.contains kv.1 &&
            decide (5 < kv.2.hands_played))) ≠ none :=
  match_award_ne st _ (fun x =>
    ("🧊 Tightest Player",
      { winner := x
        description := "Plays only a small, selective number of hands"
        stat := "Classic tight-aggressive strategy" }))

theorem abc_ne_iff (players : Players) (st : AwardsState) :
    awardAbcPlayer players st ≠ st ↔
      pickMaxBy (fun data => (data.showdown_wins : Rat)) 0
        (players.filter (fun kv =>
          if st.awardedPlayers.contains kv.1 || kv.2.hands_played ≤ 5 then
            false
          else
            decide ((3 : Rat)/20 < (kv.2.aggressive_actions : Rat) /
                ((jsOrN kv.2.hands_played 1 : Nat) : Rat)) &&
              decide ((kv.2.aggressive_actions : Rat) /
                ((jsOrN kv.2.hands_played 1 : Nat) : Rat) < 7/20))) ≠
          none :=
  match_award_ne st _ (fun x =>
    ("📚 ABC Player",
      { winner := x
        description := "Played textbook poker, predictable as clockwork"
        stat := "By-the-book basic strategy" }))

/-- **C10.** The metric-maximising behavioral steps issue their award
exactly when some eligible candidate's metric beats the loop's initial
bound: Most Aggressive needs an eligible player with at least one
aggressive action, Calling Station one with at least one call, ABC
Player one with at least one showdown win, and Tightest Player (a
minimum loop starting at 1) one whose voluntary-play ratio is strictly
below 1; otherwise the state is returned unchanged even when eligible
candidates exist. -/
theorem C10_positive_metric (players : Players) (st : AwardsState) :
    (awardMostAggressive players st ≠ st ↔
      ∃ kv ∈ players.filter (fun kv =>
        decide (5 < kv.2.hands_played) &&
          !st.awardedPlayers.contains kv.1),
        0 < kv.2.aggressive_actions) ∧
    (awardCallingStation players st ≠ st ↔
      ∃ kv ∈ players.filter (fun kv =>
        !st.awardedPlayers.contains kv.1 &&
          decide (5 < kv.2.hands_played)),
        0 < kv.2.calls) ∧
    (awardAbcPlayer players st ≠ st ↔
      ∃ kv ∈ players.filter (fun kv =>
        if st.awardedPlayers.contains kv.1 || kv.2.hands_played ≤ 5 then
          false
        else
          decide ((3 : Rat)/20 < (kv.2.aggressive_actions : Rat) /
              ((jsOrN kv.2.hands_played 1 : Nat) : Rat)) &&
            decide ((kv.2.aggressive_actions : Rat) /
              ((jsOrN kv.2.hands_played 1 : Nat) : Rat) < 7/20)),
        0 < kv.2.showdown_wins) ∧
    (awardTightestPlayer players st ≠ st ↔
      ∃ kv ∈ players.filter (fun kv =>
        !st.awardedPlayers.contains kv.1 &&
          decide (5 < kv.2.hands_played)),
        (kv.2.hands_voluntarily_played : Rat) /
          ((max (jsOrN kv.2.hands_played 1) 1 : Nat) : Rat) < 1) := by
  refine ⟨?_, ?_, ?_, ?_⟩
  · refine (aggressive_ne_iff players st).trans
      ((pickMaxBy_ne_none_iff _ 0 _).trans (exists_congr fun kv =>
        and_congr_right fun _ => ?_))
    exact ratDivPos kv.2.aggressive_actions _
      (maxDenom_pos kv.2.hands_played)
  · refine (calling_ne_iff players st).trans
      ((pickMaxBy_ne_none_iff _ 0 _).trans (exists_congr fun kv =>
        and_congr_right fun _ => ?_))
    exact ratDivPos kv.2.calls _ (maxDenom_pos kv.2.hands_played)
  · refine (abc_ne_iff players st).trans
      ((pickMaxBy_ne_none_iff _ 0 _).trans (exists_congr fun kv =>
        and_congr_right fun _ => ?_))
    exact_mod_cast Iff.rfl
  · exact (tightest_ne_iff players st).trans
      (pickMinBy_ne_none_iff _ 1 _)

/-! ## C2 — zero-hand transcripts -/

/-- **C2.** Parsing a transcript with no hand matches yields an empty
player map, hence a summary with `total_players = 0` and an empty
bad-beat log — but its awards mapping is `getSampleAwards` (the
hard-coded three sample awards), not the empty mapping, because
`calculateAwards` short-circuits on an empty player map. -/
theorem C2_zero_hands (clock : Clock) (t : Transcript)
    (h : t.hands = []) :
    (PokerAwardsParser.parseTxt clock t).total_players = 0 ∧
    (PokerAwardsParser.parseTxt clock t).awards = getSampleAwards ∧
    (PokerAwardsParser.parseTxt clock t).preparation_h_club = [] := by
  have hp : extractFromTxt t =
      { players := []
        tournament_info :=
          { id := t.tournamentId, date := t.date, player_count := 0 } } := by
    simp only [extractFromTxt, h]
    rfl
  refine ⟨?_, ?_, ?_⟩ <;> simp only [PokerAwardsParser.parseTxt, hp] <;> rfl

/-- A clock for the C2 and C8 evaluations. -/
def c2Clock : Clock :=
  { localeDate := "1/1/2024", iso := "2024-01-01T00:00:00.000Z" }

/-- The empty transcript. -/
def c2T : Transcript := { hands := [], tournamentId := none, date := none }

theorem C2_zero_hands_witness :
    (PokerAwardsParser.parseTxt c2Clock c2T).total_players = 0 ∧
    (PokerAwardsParser.parseTxt c2Clock c2T).awards = getSampleAwards ∧
    (PokerAwardsParser.parseTxt c2Clock c2T).preparation_h_club = [] :=
  C2_zero_hands c2Clock c2T rfl

theorem C2_counterexample :
    (PokerAwardsParser.parseTxt c2Clock c2T).awards ≠ [] := by
  decide

/-! ## C8 — determinism up to the clock -/

/-- **C8.** For a fixed transcript, every summary field except
`last_updated` *and* `tournament_date` is a function of the transcript
alone; `tournament_date` additionally agrees across clocks whenever the
transcript carries a nonempty timestamp match, but on a dateless
transcript it falls back to the clock's locale date, so it is not
clock-independent in general. -/
theorem C8_determinism (c1 c2 : Clock) (t : Transcript) :
    (PokerAwardsParser.parseTxt c1 t).tournament_id =
      (PokerAwardsParser.parseTxt c2 t).tournament_id ∧
    (PokerAwardsParser.parseTxt c1 t).total_players =
      (PokerAwardsParser.parseTxt c2 t).total_players ∧
    (PokerAwardsParser.parseTxt c1 t).awards =
      (PokerAwardsParser.parseTxt c2 t).awards ∧
    (PokerAwardsParser.parseTxt c1 t).preparation_h_club =
      (PokerAwardsParser.parseTxt c2 t).preparation_h_club ∧
    (∀ d, t.date = some d → d ≠ "" →
      (PokerAwardsParser.parseTxt c1 t).tournament_date =
        (PokerAwardsParser.parseTxt c2 t).tournament_date) := by
  refine ⟨rfl, rfl, rfl, rfl, ?_⟩
  intro d hd hne
  show jsOrStr t.date c1.localeDate = jsOrStr t.date c2.localeDate
  rw [hd]
  show (if d = "" then c1.localeDate else d) =
    (if d = "" then c2.localeDate else d)
  rw [if_neg hne, if_neg hne]

/-- A second clock sharing `c2Clock`'s ISO timestamp but with a
different locale date. -/
def c8Clock2 : Clock :=
  { localeDate := "2/2/2024", iso := "2024-01-01T00:00:00.000Z" }

/-- A dated transcript for the C8 witness. -/
def c8DatedT : Transcript :=
  { hands := [], tournamentId := none, date := some "2024/01/01 10:00:00" }

theorem C8_determinism_witness :
    (PokerAwardsParser.parseTxt c2Clock c8DatedT).tournament_id =
      (PokerAwardsParser.parseTxt c8Clock2 c8DatedT).tournament_id ∧
    (PokerAwardsParser.parseTxt c2Clock c8DatedT).tournament_date =
      (PokerAwardsParser.parseTxt c8Clock2 c8DatedT).tournament_date :=
  ⟨(C8_determinism c2Clock c8Clock2 c8DatedT).1,
   (C8_determinism c2Clock c8Clock2 c8DatedT).2.2.2.2
     "2024/01/01 10:00:00" rfl (by decide)⟩

theorem C8_counterexample :
    (PokerAwardsParser.parseTxt c2Clock c2T).tournament_date ≠
      (PokerAwardsParser.parseTxt c8Clock2 c2T).tournament_date ∧
    (PokerAwardsParser.parseTxt c2Clock c2T).last_updated =
      (PokerAwardsParser.parseTxt c8Clock2 c2T).last_updated := by
  constructor <;> decide

/-! ## C4 — the two copies of calculateAwards -/

/-- **C4.** The standalone `calculateAwards` and the method
`PokerAwardsParser.calculateAwards` agree — the standalone copy
returning `some` of the method's mapping — precisely on player maps
that are nonempty and produce at least one Donkey candidate after the
shared pipeline prefix; on the empty map the copies already disagree
(`{}` versus the sample awards), and without a Donkey candidate the
standalone copy falls off the end of its misplaced brace and returns
`undefined`. -/
theorem C4_implementations (players : Players)
    (hne : players ≠ [])
    (hdk : donkeyCandidatesOf players (stepsThroughHero players) ≠ []) :
    calculateAwardsStandalone players =
      some (PokerAwardsParser.calculateAwards players) := by
  simp only [calculateAwardsStandalone, PokerAwardsParser.calculateAwards,
    awardDonkey]
  rw [if_neg (fun hh => hne (List.length_eq_zero.mp hh)),
    if_neg (fun hh => hne (List.length_eq_zero.mp hh)),
    if_pos (List.length_pos.mpr hdk)]

/-- Witness map for C4: `A` is a Donkey candidate (12 hands, vpip 1,
showdown win rate 0) that no earlier behavioral category claims, and
the final positions keep the Doggy Paddling filter empty-handed. -/
def c4WitPlayers : Players :=
  [("A", { hands_played := 12, hands_voluntarily_played := 12,
           final_position := some 1 }),
   ("B", { final_position := some 2 })]

section
set_option allowUnsafeReducibility true
attribute [local semireducible] Rat.add Rat.mul Rat.sub Rat.inv Rat.div
  Rat.ofScientific

theorem C4_implementations_witness :
    c4WitPlayers ≠ [] ∧
    donkeyCandidatesOf c4WitPlayers (stepsThroughHero c4WitPlayers) ≠ [] ∧
    calculateAwardsStandalone c4WitPlayers =
      some (PokerAwardsParser.calculateAwards c4WitPlayers) :=
  ⟨by decide, by decide,
   C4_implementations c4WitPlayers (by decide) (by decide)⟩

theorem C4_counterexample :
    calculateAwardsStandalone [] ≠
      some (PokerAwardsParser.calculateAwards []) ∧
    calculateAwardsStandalone [("A", { hands_played := 12 })] = none ∧
    PokerAwardsParser.calculateAwards [("A", { hands_played := 12 })] ≠
      [] := by
  refine ⟨by decide, by decide, by decide⟩

end

/-! ## C3 — behavioral award exclusivity -/

theorem pickFold_mem (score : PlayerStat → Rat) :
    ∀ (cands : List (String × PlayerStat)) (b : Option String) (r : Rat)
      (w : String),
      (cands.foldl (fun acc kv =>
        let s := score kv.2
        if acc.2 < s then (some kv.1, s) else acc) (b, r)).1 = some w →
      b = some w ∨ ∃ kv ∈ cands, kv.1 = w
  | [], _, _, _ => fun h => Or.inl h
  | kv :: rest, b, r, w => fun h => by
    have h2 : ((rest.foldl (fun acc kv =>
        let s := score kv.2
        if acc.2 < s then (some kv.1, s) else acc)
      (if r < score kv.2 then (some kv.1, score kv.2) else (b, r))).1)
        = some w := h
    by_cases hc : r < score kv.2
    · rw [if_pos hc] at h2
      rcases pickFold_mem score rest (some kv.1) (score kv.2) w h2 with
        he | ⟨kv2, hm, he⟩
      · injection he with he2
        exact Or.inr ⟨kv, List.mem_cons_self kv rest, he2⟩
      · exact Or.inr ⟨kv2, List.mem_cons_of_mem kv hm, he⟩
    · rw [if_neg hc] at h2
      rcases pickFold_mem score rest b r w h2 with he | ⟨kv2, hm, he⟩
      · exact Or.inl he
      · exact Or.inr ⟨kv2, List.mem_cons_of_mem kv hm, he⟩

theorem pickMaxBy_mem (score : PlayerStat → Rat) (init : Rat)
    (cands : List (String × PlayerStat)) (w : String)
    (h : pickMaxBy score init cands = some w) :
    ∃ kv ∈ cands, kv.1 = w := by
  unfold pickMaxBy at h
  rcases pickFold_mem score cands none init w h with he | hex
  · cases he
  · exact hex

theorem pickMinFold_mem (score : PlayerStat → Rat) :
    ∀ (cands : List (String × PlayerStat)) (b : Option String) (r : Rat)
      (w : String),
      (cands.foldl (fun acc kv =>
        let s := score kv.2
        if s < acc.2 then (some kv.1, s) else acc) (b, r)).1 = some w →
      b = some w ∨ ∃ kv ∈ cands, kv.1 = w
  | [], _, _, _ => fun h => Or.inl h
  | kv :: rest, b, r, w => fun h => by
    have h2 : ((rest.foldl (fun acc kv =>
        let s := score kv.2
        if s < acc.2 then (some kv.1, s) else acc)
      (if score kv.2 < r then (some kv.1, score kv.2) else (b, r))).1)
        = some w := h
    by_cases hc : score kv.2 < r
    · rw [if_pos hc] at h2
      rcases pickMinFold_mem score rest (some kv.1) (score kv.2) w h2 with
        he | ⟨kv2, hm, he⟩
      · injection he with he2
        exact Or.inr ⟨kv, List.mem_cons_self kv rest, he2⟩
      · exact Or.inr ⟨kv2, List.mem_cons_of_mem kv hm, he⟩
    · rw [if_neg hc] at h2
      rcases pickMinFold_mem score rest b r w h2 with he | ⟨kv2, hm, he⟩
      · exact Or.inl he
      · exact Or.inr ⟨kv2, List.mem_cons_of_mem kv hm, he⟩

theorem pickMinBy_mem (score : PlayerStat → Rat) (init : Rat)
    (cands : List (String × PlayerStat)) (w : String)
    (h : pickMinBy score init cands = some w) :
    ∃ kv ∈ cands, kv.1 = w := by
  unfold pickMinBy at h
  rcases pickMinFold_mem score cands none init w h with he | hex
  · cases he
  · exact hex

theorem mem_foldl_accum {β γ : Type} (g : β → List γ) (c : β → Bool) :
    ∀ (l : List β) (acc : List γ) (x : γ),
      x ∈ l.foldl (fun a b => if c b then a else a ++ g b) acc →
      x ∈ acc ∨ ∃ b ∈ l, c b = false ∧ x ∈ g b
  | [], _, _ => fun h => Or.inl h
  | b :: rest, acc, x => fun h => by
    have h2 : x ∈ rest.foldl (fun a b => if c b then a else a ++ g b)
        (if c b then acc else acc ++ g b) := h
    by_cases hc : c b = true
    · rw [if_pos hc] at h2
      rcases mem_foldl_accum g c rest acc x h2 with hx | ⟨b2, hm, hb2⟩
      · exact Or.inl hx
      · exact Or.inr ⟨b2, List.mem_cons_of_mem b hm, hb2⟩
    · rw [if_neg hc] at h2
      rcases mem_foldl_accum g c rest (acc ++ g b) x h2 with
        hx | ⟨b2, hm, hb2⟩
      · rcases List.mem_append.mp hx with h3 | h3
        · exact Or.inl h3
        · exact Or.inr ⟨b, List.mem_cons_self b rest,
            Bool.eq_false_iff.mpr hc, h3⟩
      · exact Or.inr ⟨b2, List.mem_cons_of_mem b hm, hb2⟩

/-- The award labels whose categories consult and extend the
`awardedPlayers` exclusion set; the placement labels (Champion, Runner
Up, Bubble Boy) are absent. -/
def behavioralNames : List String :=
  ["🔥 Most Aggressive", "📞 Calling Station", "🧊 Tightest Player",
   "🎯 Comeback Kid", "🎲 YOLO Award", "🐶💦 Doggy Paddling Award",
   "🎭 Hollywood Actor", "💩 7-2 Hero", "🐴 Donkey", "📚 ABC Player"]

/-- Whether an award entry belongs to a behavioral category. -/
def behPredicate (kv : String × AwardRecord) : Bool :=
  behavioralNames.contains kv.1

/-- Invariant threaded through the award pipeline: the behavioral
entries collected so far carry pairwise distinct winners, each of whom
is recorded in `awardedPlayers`. -/
def AwardsInv (st : AwardsState) : Prop :=
  List.Pairwise (fun a b => a.2.winner ≠ b.2.winner)
    (st.awards.filter behPredicate) ∧
  ∀ kv ∈ st.awards.filter behPredicate, kv.2.winner ∈ st.awardedPlayers

theorem inv_placement (st : AwardsState) (name : String) (r : AwardRecord)
    (hname : behPredicate (name, r) = false) (h : AwardsInv st) :
    AwardsInv { st with awards := st.awards ++ [(name, r)] } := by
  obtain ⟨h1, h2⟩ := h
  have hsingle : List.filter behPredicate [(name, r)] = [] := by
    simp [List.filter, hname]
  refine ⟨?_, ?_⟩
  · show List.Pairwise _ ((st.awards ++ [(name, r)]).filter behPredicate)
    rw [List.filter_append, hsingle, List.append_nil]
    exact h1
  · intro kv hkv
    show kv.2.winner ∈ st.awardedPlayers
    rw [show ({ st with awards := st.awards ++ [(name, r)] } :
        AwardsState).awards = st.awards ++ [(name, r)] from rfl,
      List.filter_append, hsingle, List.append_nil] at hkv
    exact h2 kv hkv

theorem inv_behavioral (st : AwardsState) (name : String) (r : AwardRecord)
    (hname : behPredicate (name, r) = true)
    (hw : r.winner ∉ st.awardedPlayers) (h : AwardsInv st) :
    AwardsInv { awards := st.awards ++ [(name, r)]
                awardedPlayers := st.awardedPlayers ++ [r.winner] } := by
  obtain ⟨h1, h2⟩ := h
  have hsingle : List.filter behPredicate [(name, r)] = [(name, r)] := by
    simp [List.filter, hname]
  refine ⟨?_, ?_⟩
  · show List.Pairwise _ ((st.awards ++ [(name, r)]).filter behPredicate)
    rw [List.filter_append, hsingle]
    apply List.pairwise_append.mpr
    refine ⟨h1, List.pairwise_singleton _ _, ?_⟩
    intro a ha b hb
    have hb2 := List.mem_singleton.mp hb
    subst hb2
    exact fun heq => hw (heq ▸ h2 a ha)
  · intro kv hkv
    show kv.2.winner ∈ st.awardedPlayers ++ [r.winner]
    rw [show ({ awards := st.awards ++ [(name, r)],
                awardedPlayers := st.awardedPlayers ++ [r.winner] } :
        AwardsState).awards = st.awards ++ [(name, r)] from rfl,
      List.filter_append, hsingle] at hkv
    rcases List.mem_append.mp hkv with hold | hnew
    · exact List.mem_append_left _ (h2 kv hold)
    · have hkv2 := List.mem_singleton.mp hnew
      subst hkv2
      exact List.mem_append_right _ (List.mem_singleton.mpr rfl)

theorem if_some_fst {α : Type} {c : Prop} [Decidable c] (n : String)
    (v : α) (x : String × α)
    (hf : (if c then some (n, v) else none) = some x) : x.1 = n := by
  split at hf
  · injection hf with h2
    rw [← h2]
  · cases hf

theorem inv_champion (players : Players) (st : AwardsState)
    (h : AwardsInv st) : AwardsInv (awardChampion players st) := by
  simp only [awardChampion]
  split
  · exact inv_placement st _ _ rfl h
  · exact h

theorem inv_runnerup (players : Players) (st : AwardsState)
    (h : AwardsInv st) : AwardsInv (awardRunnerUp players st) := by
  simp only [awardRunnerUp]
  split
  · exact inv_placement st _ _ rfl h
  · exact h

theorem inv_bubble (players : Players) (st : AwardsState)
    (h : AwardsInv st) : AwardsInv (awardBubbleBoy players st) := by
  simp only [awardBubbleBoy]
  split
  · split
    · exact inv_placement st _ _ rfl h
    · exact h
  · exact h

theorem inv_aggressive (players : Players) (st : AwardsState)
    (h : AwardsInv st) : AwardsInv (awardMostAggressive players st) := by
  simp only [awardMostAggressive]
  split
  · rename_i x heq
    obtain ⟨kv, hkv, hkv1⟩ := pickMaxBy_mem _ 0 _ x heq
    have hpred := (List.mem_filter.mp hkv).2
    simp only [Bool.and_eq_true, Bool.not_eq_true'] at hpred
    have hx : x ∉ st.awardedPlayers := by
      intro hmem
      rw [← hkv1] at hmem
      have hc := hpred.2
      simp [List.elem_iff] at hc
      exact hc hmem
    exact inv_behavioral st _ _ rfl hx h
  · exact h

theorem inv_calling (players : Players) (st : AwardsState)
    (h : AwardsInv st) : AwardsInv (awardCallingStation players st) := by
  simp only [awardCallingStation]
  split
  · rename_i x heq
    obtain ⟨kv, hkv, hkv1⟩ := pickMaxBy_mem _ 0 _ x heq
    have hpred := (List.mem_filter.mp hkv).2
    simp only [Bool.and_eq_true, Bool.not_eq_true'] at hpred
    have hx : x ∉ st.awardedPlayers := by
      intro hmem
      rw [← hkv1] at hmem
      have hc := hpred.1
      simp [List.elem_iff] at hc
      exact hc hmem
    exact inv_behavioral st _ _ rfl hx h
  · exact h

theorem inv_tightest (players : Players) (st : AwardsState)
    (h : AwardsInv st) : AwardsInv (awardTightestPlayer players st) := by
  simp only [awardTightestPlayer]
  split
  · rename_i x heq
    obtain ⟨kv, hkv, hkv1⟩ := pickMinBy_mem _ 1 _ x heq
    have hpred := (List.mem_filter.mp hkv).2
    simp only [Bool.and_eq_true, Bool.not_eq_true'] at hpred
    have hx : x ∉ st.awardedPlayers := by
      intro hmem
      rw [← hkv1] at hmem
      have hc := hpred.1
      simp [List.elem_iff] at hc
      exact hc hmem
    exact inv_behavioral st _ _ rfl hx h
  · exact h

theorem inv_doggy (players : Players) (st : AwardsState)
    (h : AwardsInv st) : AwardsInv (awardDoggyPaddling players st) := by
  simp only [awardDoggyPaddling]
  split
  · rename_i x heq
    obtain ⟨kv, hkv, hkv1⟩ := pickMaxBy_mem _ 0 _ x heq
    have hpred := (List.mem_filter.mp hkv).2
    simp only [Bool.and_eq_true, Bool.not_eq_true'] at hpred
    have hx : x ∉ st.awardedPlayers := by
      intro hmem
      rw [← hkv1] at hmem
      have hc := hpred.1
      simp [List.elem_iff] at hc
      exact hc hmem
    exact inv_behavioral st _ _ rfl hx h
  · exact h

theorem inv_hollywood (players : Players) (st : AwardsState)
    (h : AwardsInv st) : AwardsInv (awardHollywoodActor players st) := by
  simp only [awardHollywoodActor]
  split
  · rename_i x heq
    obtain ⟨kv, hkv, hkv1⟩ := pickMaxBy_mem _ 0 _ x heq
    have hpred := (List.mem_filter.mp hkv).2
    simp only [Bool.and_eq_true, Bool.not_eq_true'] at hpred
    have hx : x ∉ st.awardedPlayers := by
      intro hmem
      rw [← hkv1] at hmem
      have hc := hpred.1
      simp [List.elem_iff] at hc
      exact hc hmem
    exact inv_behavioral st _ _ rfl hx h
  · exact h

theorem inv_abc (players : Players) (st : AwardsState)
    (h : AwardsInv st) : AwardsInv (awardAbcPlayer players st) := by
  simp only [awardAbcPlayer]
  split
  · rename_i x heq
    obtain ⟨kv, hkv, hkv1⟩ := pickMaxBy_mem _ 0 _ x heq
    have hpred := (List.mem_filter.mp hkv).2
    have hx : x ∉ st.awardedPlayers := by
      intro hmem
      rw [← hkv1] at hmem
      by_cases hc : (st.awardedPlayers.contains kv.1 ||
          decide (kv.2.hands_played ≤ 5)) = true
      · rw [if_pos hc] at hpred
        cases hpred
      · simp only [Bool.or_eq_true, not_or] at hc
        have hc1 := hc.1
        simp [List.elem_iff] at hc1
        exact hc1 hmem
    exact inv_behavioral st _ _ rfl hx h
  · exact h

theorem inv_yolo (players : Players) (st : AwardsState)
    (h : AwardsInv st) : AwardsInv (awardYolo players st) := by
  simp only [awardYolo]
  split
  · rename_i yw heq
    have hmem2 := List.mem_of_mem_head? (Option.mem_def.mpr heq)
    rcases mem_foldl_accum
        (fun kv => kv.2.suckouts.filterMap (fun suckout =>
          let description := strToLower suckout.description
          if ["7", "2", "offsuit", "unsuited"].any
              (fun badHand => strIncludes description badHand)
          then some (kv.1, suckout) else none))
        (fun kv => st.awardedPlayers.contains kv.1)
        players [] yw hmem2 with hx0 | ⟨kv, hkvmem, hcf, hg⟩
    · exact absurd hx0 (List.not_mem_nil yw)
    · obtain ⟨s, hs, hf⟩ := List.mem_filterMap.mp hg
      have hyw1 : yw.1 = kv.1 := if_some_fst kv.1 s yw hf
      have hx : yw.1 ∉ st.awardedPlayers := by
        rw [hyw1]
        simp [List.elem_iff] at hcf
        exact hcf
      exact inv_behavioral st _ _ rfl hx h
  · exact h

theorem inv_seventwo (players : Players) (st : AwardsState)
    (h : AwardsInv st) : AwardsInv (awardSevenTwoHero players st) := by
  simp only [awardSevenTwoHero]
  split
  · rename_i hw heq
    have hmem2 := List.mem_of_mem_head? (Option.mem_def.mpr heq)
    rcases mem_foldl_accum
        (fun kv => kv.2.suckouts.filterMap (fun suckout =>
          let winningHand := strToLower suckout.winning_hand
          if (strIncludes winningHand "7" && strIncludes winningHand "2") ||
              strIncludes winningHand "worst"
          then some (kv.1, suckout) else none))
        (fun kv => st.awardedPlayers.contains kv.1)
        players [] hw hmem2 with hx0 | ⟨kv, hkvmem, hcf, hg⟩
    · exact absurd hx0 (List.not_mem_nil hw)
    · obtain ⟨s, hs, hf⟩ := List.mem_filterMap.mp hg
      have hhw1 : hw.1 = kv.1 := if_some_fst kv.1 s hw hf
      have hx : hw.1 ∉ st.awardedPlayers := by
        rw [hhw1]
        simp [List.elem_iff] at hcf
        exact hcf
      exact inv_behavioral st _ _ rfl hx h
  · exact h

theorem inv_comeback (players : Players) (st : AwardsState)
    (h : AwardsInv st) : AwardsInv (awardComebackKid players st) := by
  simp only [awardComebackKid]
  split
  · rename_i ck heq
    have hmem2 := (mem_jsSortDesc (fun c => c.2) ck _).mp
      (List.mem_of_mem_head? (Option.mem_def.mpr heq))
    cases hac : (players.map (fun kv => kv.2.max_chips)).filter
        (fun c => 0 < c) with
    | nil =>
      simp only [hac] at hmem2
      exact absurd hmem2 (List.not_mem_nil ck)
    | cons c restChips =>
      simp only [hac] at hmem2
      obtain ⟨kv, hkv, hf⟩ := List.mem_filterMap.mp hmem2
      beta_reduce at hf
      by_cases hcont : st.awardedPlayers.contains kv.1
      · rw [if_pos hcont] at hf
        cases hf
      · rw [if_neg hcont] at hf
        cases hfp : kv.2.final_position with
        | none =>
          rw [hfp] at hf
          exact Option.noConfusion hf
        | some fp =>
          rw [hfp] at hf
          have hck1 : ck.1 = kv.1 := if_some_fst kv.1 _ ck hf
          have hx : ck.1 ∉ st.awardedPlayers := by
            rw [hck1]
            simp [List.elem_iff] at hcont
            exact hcont
          exact inv_behavioral st _ _ rfl hx h
  · exact h

theorem inv_donkey (players : Players) (st : AwardsState)
    (h : AwardsInv st) : AwardsInv (awardDonkey players st) := by
  simp only [awardDonkey, applyDonkey]
  split
  · rename_i wp heq
    split
    · have hmem2 := (mem_jsSortDesc (fun c => c.2.1) wp _).mp
        (List.mem_of_mem_head? (Option.mem_def.mpr heq))
      obtain ⟨kv, hkv, hf⟩ := List.mem_filterMap.mp hmem2
      beta_reduce at hf
      by_cases hcont : st.awardedPlayers.contains kv.1
      · rw [if_pos hcont] at hf
        cases hf
      · rw [if_neg hcont] at hf
        simp only [] at hf
        split at hf
        · have hwp1 : wp.1 = kv.1 := if_some_fst kv.1 _ wp hf
          have hx : wp.1 ∉ st.awardedPlayers := by
            rw [hwp1]
            simp [List.elem_iff] at hcont
            exact hcont
          exact inv_behavioral st _ _ rfl hx h
        · cases hf
    · exact h
  · exact h

theorem inv_pipeline (players : Players) :
    AwardsInv (awardBubbleBoy players (awardAbcPlayer players
      (awardDonkey players (stepsThroughHero players)))) := by
  have h0 : AwardsInv { awards := [], awardedPlayers := [] } :=
    ⟨List.Pairwise.nil, fun kv hkv => absurd hkv (List.not_mem_nil kv)⟩
  simp only [stepsThroughHero]
  exact inv_bubble _ _ (inv_abc _ _ (inv_donkey _ _ (inv_seventwo _ _
    (inv_hollywood _ _ (inv_doggy _ _ (inv_yolo _ _ (inv_comeback _ _
    (inv_tightest _ _ (inv_calling _ _ (inv_aggressive _ _
    (inv_runnerup _ _ (inv_champion _ _ h0))))))))))))

/-- Demo map for the placement-exemption half of C3: `A` finishes
first (a placement award) and also posts the best aggression ratio
(a behavioral award). -/
def c3Demo : Players :=
  [("A", { final_position := some 1, hands_played := 6,
           aggressive_actions := 3 })]

section
set_option allowUnsafeReducibility true
attribute [local semireducible] Rat.add Rat.mul Rat.sub Rat.inv Rat.div
  Rat.ofScientific

/-- **C3.** In every award mapping the engine produces, no two
behavioral awards name the same winner: each behavioral category
filters out `awardedPlayers` and appends its winner to that set, while
the placement categories (Tournament Champion, Runner Up, Bubble Boy)
neither consult nor extend it — so a placement winner may additionally
hold one behavioral award, as the demo map shows. -/
theorem C3_behavioral_exclusivity :
    (∀ players : Players,
      List.Pairwise (fun a b => a.2.winner ≠ b.2.winner)
        ((PokerAwardsParser.calculateAwards players).filter
          behPredicate)) ∧
    ((PokerAwardsParser.calculateAwards c3Demo).lookup
        "🏆 Tournament Champion").map (fun r => r.winner) = some "A" ∧
    ((PokerAwardsParser.calculateAwards c3Demo).lookup
        "🔥 Most Aggressive").map (fun r => r.winner) = some "A" := by
  refine ⟨?_, ?_, ?_⟩
  · intro players
    by_cases hz : players.length = 0
    · simp only [PokerAwardsParser.calculateAwards, if_pos hz]
      decide
    · simp only [PokerAwardsParser.calculateAwards, if_neg hz]
      exact (inv_pipeline players).1
  · decide
  · decide

end

end Pokerpopupstats
